import Mathlib

/-!
# intervue-poll: the live poll session coordinator of `backend/server.js`

A shallow embedding of the socket handlers of `backend/server.js` and of the
schema of `backend/models/Poll.js`.

* The three process-wide containers `activePolls` (a `Map`), `participants`
  (a `Set`) and `chatMessages` (an array) are fields of `ServerState`, next to
  the `polls` collection of the database and the connected sockets.
* A handler is a function from the state and the event's payload to the new
  state and the list of things it sent out, in the order of the source.
* A database call either resolves or rejects; which of the two is an input of
  the handler (`storeOk`), as is the identifier the driver generates for a new
  document (`newId`) and the clock reading of a chat message.
* A handler runs to the end, its database round trip included, before the next
  event is taken.  Console output is left out.
* JavaScript strings are `String`; numbers that count votes are `Nat`.
-/

namespace IntervuePoll

/-! ## JavaScript objects, maps, sets and arrays -/

/-- Own properties of a plain object, in insertion order; the statements read
objects through `objLookup` and `objKeys`, so the place JavaScript gives to
integer-like keys when it enumerates an object plays no part. -/
abbrev JsObject (α : Type) := List (String × α)

/-- Own-property lookup. -/
def objLookup {α : Type} : JsObject α → String → Option α
  | [], _ => none
  | (k, v) :: rest, key => if k = key then some v else objLookup rest key

/-- Own keys of an object. -/
def objKeys {α : Type} (o : JsObject α) : List String := o.map Prod.fst

/-- Creates or overwrites an own data property. -/
def objUpsert {α : Type} : JsObject α → String → α → JsObject α
  | [], key, v => [(key, v)]
  | (k, w) :: rest, key, v =>
      if k = key then (k, v) :: rest else (k, w) :: objUpsert rest key v

/-- The assignment `o[key] = v` on an object whose prototype is
`Object.prototype`, for a primitive `v`: the key `__proto__`, unless it is an
own property, reaches the inherited setter, which ignores a value that is
neither an object nor null; every other key creates or overwrites an own
property. -/
def objAssign {α : Type} (o : JsObject α) (key : String) (v : α) : JsObject α :=
  if key = "__proto__" ∧ key ∉ objKeys o then o else objUpsert o key v

/-- Property names that every plain object inherits from `Object.prototype`;
each of them reads as a function or an object, hence as a truthy value. -/
def objectPrototypeKeys : List String :=
  ["constructor", "__defineGetter__", "__defineSetter__", "hasOwnProperty",
   "__lookupGetter__", "__lookupSetter__", "isPrototypeOf",
   "propertyIsEnumerable", "toString", "valueOf", "__proto__", "toLocaleString"]

/-- Truthiness of `o[key]` for a plain object `o` with string values: an own
property is truthy unless it is the empty string; a missing own property falls
back to `Object.prototype`. -/
def propTruthy (o : JsObject String) (key : String) : Bool :=
  match objLookup o key with
  | some v => decide (v ≠ "")
  | none => decide (key ∈ objectPrototypeKeys)

/-- The method `Map.prototype.get`. -/
def mapGet {α : Type} (m : List (String × α)) (key : String) : Option α :=
  objLookup m key

/-- The method `Map.prototype.has`. -/
def mapHas {α : Type} (m : List (String × α)) (key : String) : Bool :=
  (mapGet m key).isSome

/-- The method `Map.prototype.set`: an existing key keeps its place. -/
def mapSet {α : Type} (m : List (String × α)) (key : String) (v : α) :
    List (String × α) :=
  objUpsert m key v

/-- The method `Map.prototype.delete`. -/
def mapDelete {α : Type} (m : List (String × α)) (key : String) :
    List (String × α) :=
  m.filter (fun kv => decide (kv.1 ≠ key))

/-- The method `Set.prototype.add`, on a set kept in insertion order. -/
def setAdd (s : List String) (x : String) : List String :=
  if x ∈ s then s else s ++ [x]

/-- The method `Set.prototype.delete`. -/
def setDelete (s : List String) (x : String) : List String :=
  s.filter (fun y => decide (y ≠ x))

/-- The method `Array.prototype.findIndex`; `none` stands for `-1`. -/
def findIndex {α : Type} (p : α → Bool) : List α → Option Nat
  | [] => none
  | x :: xs => if p x then some 0 else (findIndex p xs).map (· + 1)

/-- In-place update of the array element at an index. -/
def modifyAt {α : Type} (f : α → α) : List α → Nat → List α
  | [], _ => []
  | x :: xs, 0 => f x :: xs
  | x :: xs, n + 1 => x :: modifyAt f xs n

/-- The call `arr.slice(-n)`: the last `n` elements. -/
def sliceLast {α : Type} (n : Nat) (arr : List α) : List α :=
  arr.drop (arr.length - n)

/-- The `length` of a JavaScript string, counted in UTF-16 code units. -/
def jsLength (s : String) : Nat :=
  (s.toList.map (fun c => if c.toNat < 65536 then 1 else 2)).sum

/-- The method `String.prototype.startsWith`, on character lists. -/
def startsWithChars : List Char → List Char → Bool
  | _, [] => true
  | [], _ :: _ => false
  | c :: cs, p :: ps => decide (c = p) && startsWithChars cs ps

/-- The method `String.prototype.startsWith`. -/
def startsWith (s pre : String) : Bool :=
  startsWithChars s.toList pre.toList

/-! ## `parseInt` -/

/-- White space and line terminators that `parseInt` skips. -/
def isStrWhiteSpace (c : Char) : Bool :=
  let n := c.toNat
  n = 9 || n = 10 || n = 11 || n = 12 || n = 13 || n = 32 || n = 160 ||
  n = 5760 || (8192 ≤ n && n ≤ 8202) || n = 8232 || n = 8233 || n = 8239 ||
  n = 8287 || n = 12288 || n = 65279

/-- Value of a character as a digit, up to base 36. -/
def digitValue (c : Char) : Option Nat :=
  let n := c.toNat
  if 48 ≤ n ∧ n ≤ 57 then some (n - 48)
  else if 97 ≤ n ∧ n ≤ 122 then some (n - 87)
  else if 65 ≤ n ∧ n ≤ 90 then some (n - 55)
  else none

/-- Reads the longest prefix of digits of the radix; the accumulator carries
the value so far and whether a digit was seen. -/
def readDigits (radix : Nat) : List Char → Option Nat → Option Nat
  | [], acc => acc
  | c :: cs, acc =>
      match digitValue c with
      | some d =>
          if d < radix then readDigits radix cs (some (acc.getD 0 * radix + d))
          else acc
      | none => acc

/-- Splits off a leading sign. -/
def readSign : List Char → Bool × List Char
  | c :: cs => if c = '-' then (true, cs) else if c = '+' then (false, cs) else (false, c :: cs)
  | [] => (false, [])

/-- Splits off a leading `0x` or `0X` and gives the radix. -/
def readRadix : List Char → Nat × List Char
  | c :: d :: cs => if c = '0' ∧ (d = 'x' ∨ d = 'X') then (16, cs) else (10, c :: d :: cs)
  | cs => (10, cs)

/-- The global `parseInt` with no radix argument, on the string form of its
argument; `none` stands for `NaN`.  The source's result is a double, which is
exact up to `2 ^ 53`; the model keeps the integer. -/
def parseInt (s : String) : Option Int :=
  let body := s.toList.dropWhile isStrWhiteSpace
  let (neg, rest) := readSign body
  let (radix, digits) := readRadix rest
  match readDigits radix digits none with
  | none => none
  | some n => some (if neg then -(n : Int) else (n : Int))

/-! ## Data model (`models/Poll.js`) -/

/-- The `status` enum of `pollSchema`. -/
inductive PollStatus where
  | active
  | completed
  deriving DecidableEq, Repr

/-- A document of `optionSchema`. -/
structure PollOption where
  text : String
  correct : Bool
  votes : Nat
  deriving DecidableEq, Repr

/-- A document of `pollSchema`; the object kept in `activePolls` has the same
fields, copied by `toObject()`. -/
structure Poll where
  question : String
  options : List PollOption
  timer : Int
  teacherUsername : String
  votes : JsObject String
  totalVotes : Nat
  status : PollStatus
  deriving DecidableEq, Repr

/-- An option as a client sends it in `createPoll`: `correct` may be missing,
and a `votes` field may come along. -/
structure OptionInput where
  text : String
  correct : Option Bool
  votes : Option Int
  deriving DecidableEq, Repr

/-- The payload of `createPoll`; `timer` is the string form of the value sent,
which is what `parseInt` reads. -/
structure PollData where
  question : String
  options : List OptionInput
  timer : String
  teacherUsername : String
  deriving DecidableEq, Repr

/-- A stored chat message: the sender's fields with the server's `timestamp`
and `id`. -/
structure ChatMessage where
  fields : List (String × String)
  timestamp : Nat
  id : Nat
  deriving DecidableEq, Repr

/-- A connected socket with the `username` property the handlers attach to it
and its membership of the room `chat`. -/
structure Socket where
  id : Nat
  username : Option String
  inChat : Bool
  deriving DecidableEq, Repr

/-- The fields an update of a poll document sets. -/
structure PollUpdate where
  status : Option PollStatus
  votes : JsObject String
  totalVotes : Nat
  options : List PollOption
  deriving DecidableEq, Repr

/-- Events the server sends to clients. -/
inductive ServerEvent where
  | error (message : String)
  | pollCreated (id : String) (question : String) (options : List PollOption) (timer : Int)
  | pollResults (voteCounts : JsObject Nat)
  | participantsUpdate (roster : List String)
  | chatHistory (messages : List ChatMessage)
  | chatMessage (message : ChatMessage)
  | kickedOut
  deriving DecidableEq, Repr

/-- What a handler sends out. -/
inductive Output where
  | emit (socket : Nat) (ev : ServerEvent)
  | broadcast (ev : ServerEvent)
  | toRoom (room : String) (ev : ServerEvent)
  | setTimeout (pollId : String) (ms : Int)
  | dbInsert (id : String) (doc : Poll)
  | dbUpdate (id : String) (upd : PollUpdate)
  | disconnect (socket : Nat)
  deriving DecidableEq, Repr

/-- The mutable state of the process and of its database. -/
structure ServerState where
  activePolls : List (String × Poll)
  participants : List String
  chatMessages : List ChatMessage
  db : List (String × Poll)
  sockets : List Socket
  deriving DecidableEq, Repr

/-- State at start-up, with an empty collection. -/
def ServerState.init : ServerState :=
  { activePolls := [], participants := [], chatMessages := [], db := [], sockets := [] }

/-! ## The `polls` collection -/

/-- The call `findByIdAndUpdate(id, upd)` when it resolves: the fields of the
update overwrite those of the document with that identifier, if there is one. -/
def applyUpdate (upd : PollUpdate) (doc : Poll) : Poll :=
  { doc with
    status := upd.status.getD doc.status
    votes := upd.votes
    totalVotes := upd.totalVotes
    options := upd.options }

/-- The collection after a resolved `findByIdAndUpdate`. -/
def findByIdAndUpdate (db : List (String × Poll)) (id : String) (upd : PollUpdate) :
    List (String × Poll) :=
  db.map (fun kv => if kv.1 = id then (kv.1, applyUpdate upd kv.2) else kv)

/-- Validation of one option subdocument: `text` is a required string (the
empty string does not pass `required`), `correct` a required boolean. -/
def optionValid (o : OptionInput) : Bool :=
  decide (o.text ≠ "") && o.correct.isSome

/-- The options of the new document: `text` and `correct` of the request,
`votes` set to zero. -/
def newOptions (options : List OptionInput) : List PollOption :=
  options.map (fun opt => { text := opt.text, correct := opt.correct.getD false, votes := 0 })

/-- The document `new Poll({...})` of `createPoll` when it passes the
validation `save()` runs: `question` required and at most 100 code units,
`timer` a number between 30 and 90, `teacherUsername` required, every option
valid.  The `status` takes its default. -/
def newPoll (pollData : PollData) : Option Poll :=
  match parseInt pollData.timer with
  | none => none
  | some timer =>
      if pollData.question ≠ "" ∧ jsLength pollData.question ≤ 100 ∧
          30 ≤ timer ∧ timer ≤ 90 ∧ pollData.teacherUsername ≠ "" ∧
          pollData.options.all optionValid = true then
        some { question := pollData.question
               options := newOptions pollData.options
               timer := timer
               teacherUsername := pollData.teacherUsername
               votes := []
               totalVotes := 0
               status := PollStatus.active }
      else none

/-- The call `poll.save()`: the validated document is inserted under the
identifier generated for it, unless the store rejects the call or the
collection already holds that identifier (its `_id` index is unique). -/
def save (db : List (String × Poll)) (newId : String) (pollData : PollData)
    (storeOk : Bool) : Option Poll :=
  match newPoll pollData with
  | none => none
  | some doc => if storeOk = true ∧ newId ∉ objKeys db then some doc else none

/-! ## Socket handlers (`server.js`) -/

/-- The socket with a given identifier among the connected ones. -/
def findSocket (s : ServerState) (sid : Nat) : Option Socket :=
  s.sockets.find? (fun k => decide (k.id = sid))

/-- Handler of `joinChat`. -/
def joinChat (s : ServerState) (sid : Nat) (username : String) :
    ServerState × List Output :=
  let participants := setAdd s.participants username
  let sockets := s.sockets.map
    (fun k => if k.id = sid then { k with username := some username, inChat := true } else k)
  ({ s with participants := participants, sockets := sockets },
   [Output.broadcast (ServerEvent.participantsUpdate participants),
    Output.emit sid (ServerEvent.chatHistory (sliceLast 50 s.chatMessages))])

/-- Handler of `chatMessage`; `timestamp` and `id` are the two clock readings. -/
def chatMessage (s : ServerState) (message : List (String × String))
    (timestamp id : Nat) : ServerState × List Output :=
  let msg : ChatMessage := { fields := message, timestamp := timestamp, id := id }
  let pushed := s.chatMessages ++ [msg]
  let kept := if pushed.length > 100 then pushed.drop 1 else pushed
  ({ s with chatMessages := kept }, [Output.toRoom "chat" (ServerEvent.chatMessage msg)])

/-- Handler of `createPoll`. -/
def createPoll (s : ServerState) (sid : Nat) (pollData : PollData) (newId : String)
    (storeOk : Bool) : ServerState × List Output :=
  match save s.db newId pollData storeOk with
  | none => (s, [Output.emit sid (ServerEvent.error "Failed to create poll")])
  | some poll =>
      ({ s with
         db := s.db ++ [(newId, poll)]
         activePolls := mapSet s.activePolls newId { poll with votes := [], totalVotes := 0 } },
       [Output.dbInsert newId poll,
        Output.broadcast
          (ServerEvent.pollCreated newId pollData.question poll.options poll.timer),
        Output.setTimeout newId (poll.timer * 1000)])

/-- The object `voteCounts` built by the `forEach` of `submitAnswer`. -/
def voteCounts (options : List PollOption) : JsObject Nat :=
  options.foldl (fun acc opt => objAssign acc opt.text opt.votes) []

/-- The live session after the vote is recorded: `votes[username] = option`,
`totalVotes++`, and `votes++` on the option `findIndex` returns, if any. -/
def recordVote (poll : Poll) (username option : String) : Poll :=
  let votes := objAssign poll.votes username option
  let totalVotes := poll.totalVotes + 1
  match findIndex (fun opt => decide (opt.text = option)) poll.options with
  | some optionIndex =>
      { poll with
        votes := votes
        totalVotes := totalVotes
        options := modifyAt (fun o => { o with votes := o.votes + 1 }) poll.options optionIndex }
  | none => { poll with votes := votes, totalVotes := totalVotes }

/-- Handler of `submitAnswer`. -/
def submitAnswer (s : ServerState) (sid : Nat) (username option pollId : String)
    (storeOk : Bool) : ServerState × List Output :=
  match mapGet s.activePolls pollId with
  | none => (s, [Output.emit sid (ServerEvent.error "Poll not found or expired")])
  | some poll =>
      if propTruthy poll.votes username then
        (s, [Output.emit sid (ServerEvent.error "You have already voted")])
      else
        let poll1 := recordVote poll username option
        let s1 := { s with activePolls := mapSet s.activePolls pollId poll1 }
        if storeOk then
          let upd : PollUpdate :=
            { status := none, votes := poll1.votes, totalVotes := poll1.totalVotes,
              options := poll1.options }
          ({ s1 with db := findByIdAndUpdate s1.db pollId upd },
           [Output.dbUpdate pollId upd,
            Output.broadcast (ServerEvent.pollResults (voteCounts poll1.options))])
        else
          (s1, [Output.emit sid (ServerEvent.error "Failed to submit answer")])

/-- Handler of `disconnect` for a socket: the socket leaves the connected
ones, and a truthy `socket.username` is deleted from `participants`. -/
def disconnect (s : ServerState) (sock : Socket) : ServerState × List Output :=
  let sockets := s.sockets.filter (fun k => decide (k.id ≠ sock.id))
  match sock.username with
  | some username =>
      if username ≠ "" then
        let participants := setDelete s.participants username
        ({ s with sockets := sockets, participants := participants },
         [Output.broadcast (ServerEvent.participantsUpdate participants)])
      else ({ s with sockets := sockets }, [])
  | none => ({ s with sockets := sockets }, [])

/-- The `forEach` of `kickOut` over the sockets bound to the username: each
gets `kickedOut` and is disconnected, which runs its `disconnect` handler. -/
def kickAll : ServerState → List Socket → ServerState × List Output
  | s, [] => (s, [])
  | s, userSocket :: rest =>
      let r := disconnect s userSocket
      let r2 := kickAll r.1 rest
      (r2.1, [Output.emit userSocket.id ServerEvent.kickedOut,
              Output.disconnect userSocket.id] ++ r.2 ++ r2.2)

/-- Handler of `kickOut` on the socket `sid`. -/
def kickOut (s : ServerState) (sid : Nat) (username : String) :
    ServerState × List Output :=
  match (findSocket s sid).bind (fun k => k.username) with
  | none => (s, [])
  | some me =>
      if me ≠ "" ∧ startsWith me "teacher" = true then
        let userSockets := s.sockets.filter (fun k => decide (k.username = some username))
        let r := kickAll s userSockets
        let participants := setDelete r.1.participants username
        ({ r.1 with participants := participants },
         r.2 ++ [Output.broadcast (ServerEvent.participantsUpdate participants)])
      else (s, [])

/-- The helper `endPoll`, run when the timer of a poll fires. -/
def endPoll (s : ServerState) (pollId : String) (storeOk : Bool) :
    ServerState × List Output :=
  match mapGet s.activePolls pollId with
  | none => (s, [])
  | some poll =>
      if storeOk then
        let upd : PollUpdate :=
          { status := some PollStatus.completed, votes := poll.votes,
            totalVotes := poll.totalVotes, options := poll.options }
        ({ s with
           db := findByIdAndUpdate s.db pollId upd
           activePolls := mapDelete s.activePolls pollId },
         [Output.dbUpdate pollId upd])
      else (s, [])

/-! ## Events and runs -/

/-- What can happen to the server: a socket connects, a connected socket
sends one of the events, a socket goes away, or the timer of a poll fires. -/
inductive Event where
  | connection (sid : Nat)
  | joinChat (sid : Nat) (username : String)
  | chatMessage (sid : Nat) (message : List (String × String)) (timestamp id : Nat)
  | createPoll (sid : Nat) (pollData : PollData) (newId : String) (storeOk : Bool)
  | submitAnswer (sid : Nat) (username option pollId : String) (storeOk : Bool)
  | kickOut (sid : Nat) (username : String)
  | disconnect (sid : Nat)
  | timeout (pollId : String) (storeOk : Bool)
  deriving DecidableEq, Repr

/-- One event: the handlers of a socket exist while it is connected. -/
def step (s : ServerState) : Event → ServerState × List Output
  | Event.connection sid =>
      match findSocket s sid with
      | some _ => (s, [])
      | none => ({ s with sockets := s.sockets ++ [{ id := sid, username := none, inChat := false }] }, [])
  | Event.joinChat sid username =>
      match findSocket s sid with
      | some _ => joinChat s sid username
      | none => (s, [])
  | Event.chatMessage sid message timestamp id =>
      match findSocket s sid with
      | some _ => chatMessage s message timestamp id
      | none => (s, [])
  | Event.createPoll sid pollData newId storeOk =>
      match findSocket s sid with
      | some _ => createPoll s sid pollData newId storeOk
      | none => (s, [])
  | Event.submitAnswer sid username option pollId storeOk =>
      match findSocket s sid with
      | some _ => submitAnswer s sid username option pollId storeOk
      | none => (s, [])
  | Event.kickOut sid username =>
      match findSocket s sid with
      | some _ => kickOut s sid username
      | none => (s, [])
  | Event.disconnect sid =>
      match findSocket s sid with
      | some sock => disconnect s sock
      | none => (s, [])
  | Event.timeout pollId storeOk => endPoll s pollId storeOk

/-- The state after a list of events. -/
def run (s : ServerState) : List Event → ServerState
  | [] => s
  | e :: es => run (step s e).1 es

/-- One `submitAnswer` event on a fixed poll: socket, username, option and
the outcome of the database call. -/
structure Submission where
  sid : Nat
  username : String
  option : String
  storeOk : Bool
  deriving DecidableEq, Repr

/-- The state after a list of `submitAnswer` events on one poll. -/
def submitAll (s : ServerState) (pollId : String) : List Submission → ServerState
  | [] => s
  | e :: es => submitAll (submitAnswer s e.sid e.username e.option pollId e.storeOk).1 pollId es

/-- Sum of the vote counts of the options. -/
def sumVotes (options : List PollOption) : Nat :=
  (options.map (fun o => o.votes)).sum

/-- The last option, in declared order, with a given text. -/
def lastWithText (options : List PollOption) (text : String) : Option PollOption :=
  (options.filter (fun o => decide (o.text = text))).getLast?

/-! ## A running example: the poll "2+2=?" -/

/-- The request of the example scenario. -/
def examplePollData : PollData :=
  { question := "2+2=?"
    options := [{ text := "4", correct := some true, votes := none },
                { text := "5", correct := some false, votes := none }]
    timer := "30"
    teacherUsername := "teacher_1" }

/-- The state right after the example poll is created under identifier `p1`. -/
def exampleState : ServerState :=
  (createPoll ServerState.init 1 examplePollData "p1" true).1

/-- The live session of the example poll right after its creation. -/
def exampleSession : Poll :=
  { question := "2+2=?"
    options := [{ text := "4", correct := true, votes := 0 },
                { text := "5", correct := false, votes := 0 }]
    timer := 30
    teacherUsername := "teacher_1"
    votes := []
    totalVotes := 0
    status := PollStatus.active }

/-! ## Predicates used in the statements -/

/-- The tally of a live session is consistent: the option texts are `texts`,
`totalVotes` is the sum of the option counts and the number of keys of the
vote map, the keys are distinct, and no recorded vote is the empty string. -/
def TallyInv (texts : List String) (poll : Poll) : Prop :=
  poll.options.map (fun o => o.text) = texts ∧
  poll.totalVotes = sumVotes poll.options ∧
  sumVotes poll.options = (objKeys poll.votes).length ∧
  (objKeys poll.votes).Nodup ∧
  ∀ k v, objLookup poll.votes k = some v → v ≠ ""

/-- Every poll of the registry has a document in the collection. -/
def RegistryStored (s : ServerState) : Prop :=
  ∀ k, k ∈ objKeys s.activePolls → k ∈ objKeys s.db

/-- The poll has a document in the collection and no live session. -/
def Closed (pollId : String) (s : ServerState) : Prop :=
  pollId ∈ objKeys s.db ∧ mapGet s.activePolls pollId = none

/-- Value of a non-empty run of decimal digits. -/
def digitsValue : List Char → Option Nat
  | [] => none
  | cs => if cs.all (fun c => decide (48 ≤ c.toNat ∧ c.toNat ≤ 57)) = true then
      some (cs.foldl (fun n c => n * 10 + (c.toNat - 48)) 0) else none

/-- The number a plain decimal numeral such as `90.5` denotes, as a numerator
and the number of its fraction digits: `90.5` is `905` over `10 ^ 1`. -/
def decimalNumeral (s : String) : Option (Nat × Nat) :=
  let intPart := s.toList.takeWhile (fun c => decide (c ≠ '.'))
  match digitsValue intPart, s.toList.dropWhile (fun c => decide (c ≠ '.')) with
  | some n, [] => some (n, 0)
  | some n, _ :: frac =>
      (digitsValue frac).map (fun f => (n * 10 ^ frac.length + f, frac.length))
  | none, _ => none

/-- The timer value as supplied, read as a decimal numeral, lies in [30, 90]. -/
def suppliedInRange (timer : String) : Bool :=
  match decimalNumeral timer with
  | some (num, k) => decide (30 * 10 ^ k ≤ num ∧ num ≤ 90 * 10 ^ k)
  | none => false

/-- One `chatMessage` event: the sender's fields and the two clock readings. -/
structure ChatInput where
  message : List (String × String)
  timestamp : Nat
  id : Nat
  deriving DecidableEq, Repr

/-- The message the handler stores for an input. -/
def ChatInput.stored (m : ChatInput) : ChatMessage :=
  { fields := m.message, timestamp := m.timestamp, id := m.id }

/-- The state after a list of `chatMessage` events. -/
def chatAll (s : ServerState) : List ChatInput → ServerState
  | [] => s
  | m :: ms => chatAll (chatMessage s m.message m.timestamp m.id).1 ms

/-- Usernames bound to the connected sockets, in the order of the sockets. -/
def boundUsernames (s : ServerState) : List String :=
  s.sockets.filterMap (fun k => k.username)

/-- The event may take the username out of the participant set: the
disconnection of a socket bound to it, or a `kickOut` naming it. -/
def removesUser (s : ServerState) (v : String) : Event → Bool
  | Event.disconnect sid => decide ((findSocket s sid).bind (fun k => k.username) = some v)
  | Event.kickOut _ target => decide (target = v)
  | _ => false

/-- No event of the list, taken in turn from the state, may take the username
out of the participant set. -/
def neverRemoved (v : String) : ServerState → List Event → Bool
  | _, [] => true
  | s, e :: es => !removesUser s v e && neverRemoved v (step s e).1 es

/-- A `joinChat` comes from a socket with no username yet and carries a
non-empty username that no connected socket holds. -/
def freshJoin (s : ServerState) : Event → Bool
  | Event.joinChat sid username =>
      decide (username ≠ "" ∧ (findSocket s sid).bind (fun k => k.username) = none ∧
        username ∉ boundUsernames s)
  | _ => true

/-- Every `joinChat` of the list, taken in turn from the state, is fresh. -/
def freshJoins : ServerState → List Event → Bool
  | _, [] => true
  | s, e :: es => freshJoin s e && freshJoins (step s e).1 es

/-- The roster is consistent: socket identifiers are distinct, a socket is in
the room `chat` exactly when it has a username, the bound usernames are
non-empty and distinct, and the participant set holds exactly them. -/
def RosterInv (s : ServerState) : Prop :=
  (s.sockets.map (fun k => k.id)).Nodup ∧
  (∀ k ∈ s.sockets, k.inChat = k.username.isSome) ∧
  "" ∉ boundUsernames s ∧
  (boundUsernames s).Nodup ∧
  ∀ u, u ∈ s.participants ↔ u ∈ boundUsernames s

/-! ## Objects and maps -/

theorem objLookup_objUpsert_self {α : Type} (o : JsObject α) (k : String) (v : α) :
    objLookup (objUpsert o k v) k = some v := by
  induction o with
  | nil => simp [objUpsert, objLookup]
  | cons kv rest ih =>
      obtain ⟨k0, w⟩ := kv
      by_cases h : k0 = k
      · simp [objUpsert, objLookup, h]
      · simp [objUpsert, objLookup, h, ih]

theorem objLookup_objUpsert_ne {α : Type} (o : JsObject α) (k k2 : String) (v : α)
    (hne : k2 ≠ k) : objLookup (objUpsert o k v) k2 = objLookup o k2 := by
  have hne2 : ¬ k = k2 := fun e => hne e.symm
  induction o with
  | nil => simp [objUpsert, objLookup, hne2]
  | cons kv rest ih =>
      obtain ⟨k0, w⟩ := kv
      by_cases h : k0 = k
      · subst h
        simp [objUpsert, objLookup, hne2]
      · by_cases h3 : k0 = k2
        · subst h3
          simp [objUpsert, objLookup, h]
        · simp [objUpsert, objLookup, h, h3, ih]

theorem objLookup_eq_none_iff {α : Type} (o : JsObject α) (k : String) :
    objLookup o k = none ↔ k ∉ objKeys o := by
  induction o with
  | nil => simp [objLookup, objKeys]
  | cons kv rest ih =>
      obtain ⟨k0, w⟩ := kv
      by_cases h : k0 = k
      · simp [objLookup, objKeys, h]
      · have h2 : ¬ k = k0 := fun e => h e.symm
        simp only [objKeys] at ih
        simp [objLookup, objKeys, h, h2, ih]

theorem objKeys_objUpsert_of_not_mem {α : Type} (o : JsObject α) (k : String) (v : α)
    (hk : k ∉ objKeys o) : objKeys (objUpsert o k v) = objKeys o ++ [k] := by
  induction o with
  | nil => simp [objUpsert, objKeys]
  | cons kv rest ih =>
      obtain ⟨k0, w⟩ := kv
      simp only [objKeys, List.map_cons, List.mem_cons, not_or] at hk ih ⊢
      have h : ¬ k0 = k := fun e => hk.1 e.symm
      simp [objUpsert, h, ih hk.2]

theorem objKeys_objUpsert_of_mem {α : Type} (o : JsObject α) (k : String) (v : α)
    (hk : k ∈ objKeys o) : objKeys (objUpsert o k v) = objKeys o := by
  induction o with
  | nil => simp [objKeys] at hk
  | cons kv rest ih =>
      obtain ⟨k0, w⟩ := kv
      by_cases h : k0 = k
      · simp [objUpsert, objKeys, h]
      · simp only [objKeys, List.map_cons, List.mem_cons] at hk ih ⊢
        have hk2 : k ∈ List.map Prod.fst rest := by
          rcases hk with e | e
          · exact absurd e.symm h
          · exact e
        simp [objUpsert, h, ih hk2]

theorem mem_objKeys_objUpsert {α : Type} (o : JsObject α) (k k2 : String) (v : α) :
    k2 ∈ objKeys (objUpsert o k v) ↔ k2 = k ∨ k2 ∈ objKeys o := by
  by_cases hk : k ∈ objKeys o
  · rw [objKeys_objUpsert_of_mem o k v hk]
    constructor
    · exact fun h => Or.inr h
    · rintro (h | h)
      · exact h ▸ hk
      · exact h
  · rw [objKeys_objUpsert_of_not_mem o k v hk]
    simp [or_comm]

theorem mapGet_mapSet_self {α : Type} (m : List (String × α)) (k : String) (v : α) :
    mapGet (mapSet m k v) k = some v :=
  objLookup_objUpsert_self m k v

theorem mapGet_mapSet_ne {α : Type} (m : List (String × α)) (k k2 : String) (v : α)
    (hne : k2 ≠ k) : mapGet (mapSet m k v) k2 = mapGet m k2 :=
  objLookup_objUpsert_ne m k k2 v hne

theorem mapDelete_cons {α : Type} (kv : String × α) (m : List (String × α)) (k : String) :
    mapDelete (kv :: m) k = if kv.1 = k then mapDelete m k else kv :: mapDelete m k := by
  by_cases h : kv.1 = k <;> simp [mapDelete, List.filter_cons, h]

theorem mapGet_cons {α : Type} (kv : String × α) (m : List (String × α)) (k : String) :
    mapGet (kv :: m) k = if kv.1 = k then some kv.2 else mapGet m k := by
  obtain ⟨k0, w⟩ := kv
  simp [mapGet, objLookup]

theorem mapGet_mapDelete_self {α : Type} (m : List (String × α)) (k : String) :
    mapGet (mapDelete m k) k = none := by
  induction m with
  | nil => rfl
  | cons kv rest ih =>
      rw [mapDelete_cons]
      by_cases h : kv.1 = k
      · rw [if_pos h]; exact ih
      · rw [if_neg h, mapGet_cons, if_neg h]; exact ih

theorem mapGet_mapDelete_ne {α : Type} (m : List (String × α)) (k k2 : String)
    (hne : k2 ≠ k) : mapGet (mapDelete m k) k2 = mapGet m k2 := by
  induction m with
  | nil => rfl
  | cons kv rest ih =>
      rw [mapDelete_cons, mapGet_cons]
      by_cases h : kv.1 = k
      · have h2 : ¬ kv.1 = k2 := fun e => hne (e.symm.trans h)
        rw [if_pos h, if_neg h2]; exact ih
      · rw [if_neg h, mapGet_cons, ih]

theorem mapGet_isSome_iff {α : Type} (m : List (String × α)) (k : String) :
    (mapGet m k).isSome = true ↔ k ∈ objKeys m := by
  have h := objLookup_eq_none_iff m k
  unfold mapGet
  cases hl : objLookup m k with
  | none => simpa using h.mp hl
  | some v =>
      simp only [Option.isSome_some, true_iff]
      by_contra hc
      rw [h.mpr hc] at hl
      cases hl

theorem mem_objKeys_mapDelete {α : Type} (m : List (String × α)) (k k2 : String) :
    k2 ∈ objKeys (mapDelete m k) ↔ k2 ≠ k ∧ k2 ∈ objKeys m := by
  simp only [objKeys, mapDelete, List.mem_map, List.mem_filter, decide_eq_true_eq]
  constructor
  · rintro ⟨kv, ⟨hm, hne⟩, rfl⟩
    exact ⟨hne, kv, hm, rfl⟩
  · rintro ⟨hne, kv, hm, rfl⟩
    exact ⟨kv, ⟨hm, hne⟩, rfl⟩

theorem objKeys_findByIdAndUpdate (db : List (String × Poll)) (id : String)
    (upd : PollUpdate) : objKeys (findByIdAndUpdate db id upd) = objKeys db := by
  induction db with
  | nil => rfl
  | cons kv rest ih =>
      simp only [objKeys, findByIdAndUpdate, List.map_cons] at ih ⊢
      rw [ih]
      by_cases h : kv.1 = id <;> simp [h]

theorem findByIdAndUpdate_cons (kv : String × Poll) (db : List (String × Poll))
    (id : String) (upd : PollUpdate) :
    findByIdAndUpdate (kv :: db) id upd =
      (if kv.1 = id then (kv.1, applyUpdate upd kv.2) else kv) ::
        findByIdAndUpdate db id upd := rfl

theorem mapGet_findByIdAndUpdate (db : List (String × Poll)) (id k : String)
    (upd : PollUpdate) :
    mapGet (findByIdAndUpdate db id upd) k =
      if k = id then (mapGet db k).map (applyUpdate upd) else mapGet db k := by
  induction db with
  | nil => simp [findByIdAndUpdate, mapGet, objLookup]
  | cons kv rest ih =>
      rw [findByIdAndUpdate_cons, mapGet_cons, mapGet_cons, ih]
      by_cases h : kv.1 = id
      · by_cases h2 : kv.1 = k
        · have h3 : k = id := h2.symm.trans h
          simp [h, h2, h3]
        · have h3 : ¬ id = k := fun e => h2 (h.trans e)
          simp [h, h3]
      · by_cases h2 : kv.1 = k
        · have h3 : ¬ k = id := fun e => h (h2.trans e)
          simp [h, h2, h3]
        · simp [h, h2]

end IntervuePoll

namespace IntervuePoll

/-! ## Arrays -/

theorem findIndex_isSome_of_mem {α : Type} (p : α → Bool) (l : List α) (x : α)
    (hx : x ∈ l) (hp : p x = true) : ∃ i, findIndex p l = some i := by
  induction l with
  | nil => cases hx
  | cons y ys ih =>
      by_cases hy : p y = true
      · exact ⟨0, by simp [findIndex, hy]⟩
      · rcases List.mem_cons.mp hx with e | e
        · exact absurd (e ▸ hp) hy
        · obtain ⟨i, hi⟩ := ih e
          exact ⟨i + 1, by simp [findIndex, hy, hi]⟩

theorem findIndex_eq_none {α : Type} (p : α → Bool) (l : List α)
    (h : ∀ x ∈ l, p x = false) : findIndex p l = none := by
  induction l with
  | nil => rfl
  | cons y ys ih =>
      have hy : p y = false := h y (List.mem_cons_self y ys)
      have ht : findIndex p ys = none := ih (fun x hx => h x (List.mem_cons_of_mem y hx))
      simp [findIndex, hy, ht]

theorem findIndex_spec {α : Type} (p : α → Bool) (l : List α) (i : Nat)
    (h : findIndex p l = some i) :
    (∃ x, l[i]? = some x ∧ p x = true) ∧ ∀ j, j < i → ∀ y, l[j]? = some y → p y = false := by
  induction l generalizing i with
  | nil => simp [findIndex] at h
  | cons y ys ih =>
      by_cases hy : p y = true
      · simp only [findIndex, hy, if_true, Option.some.injEq] at h
        subst h
        exact ⟨⟨y, by simp, hy⟩, fun j hj => absurd hj (Nat.not_lt_zero j)⟩
      · simp only [findIndex, hy, Bool.false_eq_true, if_false, Option.map_eq_some'] at h
        obtain ⟨i0, hi0, rfl⟩ := h
        obtain ⟨⟨x, hx, hpx⟩, hlt⟩ := ih i0 hi0
        refine ⟨⟨x, by simpa using hx, hpx⟩, ?_⟩
        intro j hj z hz
        cases j with
        | zero =>
            simp only [List.getElem?_cons_zero, Option.some.injEq] at hz
            subst hz
            simpa using hy
        | succ j0 =>
            simp only [List.getElem?_cons_succ] at hz
            exact hlt j0 (Nat.lt_of_succ_lt_succ hj) z hz

theorem getElem?_modifyAt_self {α : Type} (f : α → α) (l : List α) (i : Nat) :
    (modifyAt f l i)[i]? = l[i]?.map f := by
  induction l generalizing i with
  | nil => simp [modifyAt]
  | cons y ys ih =>
      cases i with
      | zero => simp [modifyAt]
      | succ i0 => simp [modifyAt, ih]

theorem getElem?_modifyAt_ne {α : Type} (f : α → α) (l : List α) (i j : Nat)
    (hne : j ≠ i) : (modifyAt f l i)[j]? = l[j]? := by
  induction l generalizing i j with
  | nil => simp [modifyAt]
  | cons y ys ih =>
      cases i with
      | zero =>
          cases j with
          | zero => exact absurd rfl hne
          | succ j0 => simp [modifyAt]
      | succ i0 =>
          cases j with
          | zero => simp [modifyAt]
          | succ j0 =>
              simp only [modifyAt, List.getElem?_cons_succ]
              exact ih i0 j0 (fun e => hne (congrArg Nat.succ e))

theorem length_modifyAt {α : Type} (f : α → α) (l : List α) (i : Nat) :
    (modifyAt f l i).length = l.length := by
  induction l generalizing i with
  | nil => simp [modifyAt]
  | cons y ys ih =>
      cases i with
      | zero => simp [modifyAt]
      | succ i0 => simp [modifyAt, ih]

theorem map_text_modifyAt (l : List PollOption) (i : Nat) :
    (modifyAt (fun o => { o with votes := o.votes + 1 }) l i).map (fun o => o.text) =
      l.map (fun o => o.text) := by
  induction l generalizing i with
  | nil => simp [modifyAt]
  | cons y ys ih =>
      cases i with
      | zero => simp [modifyAt]
      | succ i0 => simp [modifyAt, ih]

theorem sumVotes_modifyAt (l : List PollOption) (i : Nat) (x : PollOption)
    (hi : l[i]? = some x) :
    sumVotes (modifyAt (fun o => { o with votes := o.votes + 1 }) l i) = sumVotes l + 1 := by
  induction l generalizing i with
  | nil => simp at hi
  | cons y ys ih =>
      cases i with
      | zero =>
          simp only [sumVotes, modifyAt, List.map_cons, List.sum_cons]
          omega
      | succ i0 =>
          simp only [List.getElem?_cons_succ] at hi
          have h := ih i0 hi
          simp only [sumVotes, modifyAt, List.map_cons, List.sum_cons] at h ⊢
          omega

/-! ## The handler `submitAnswer` -/

theorem submitAnswer_not_found (s : ServerState) (sid : Nat) (username option pollId : String)
    (storeOk : Bool) (h : mapGet s.activePolls pollId = none) :
    submitAnswer s sid username option pollId storeOk =
      (s, [Output.emit sid (ServerEvent.error "Poll not found or expired")]) := by
  simp [submitAnswer, h]

theorem submitAnswer_duplicate (s : ServerState) (sid : Nat) (username option pollId : String)
    (storeOk : Bool) (poll : Poll) (h : mapGet s.activePolls pollId = some poll)
    (ht : propTruthy poll.votes username = true) :
    submitAnswer s sid username option pollId storeOk =
      (s, [Output.emit sid (ServerEvent.error "You have already voted")]) := by
  simp [submitAnswer, h, ht]

theorem submitAnswer_stored (s : ServerState) (sid : Nat) (username option pollId : String)
    (poll : Poll) (h : mapGet s.activePolls pollId = some poll)
    (ht : propTruthy poll.votes username = false) :
    submitAnswer s sid username option pollId true =
      ({ s with
         activePolls := mapSet s.activePolls pollId (recordVote poll username option)
         db := findByIdAndUpdate s.db pollId
           { status := none, votes := (recordVote poll username option).votes,
             totalVotes := (recordVote poll username option).totalVotes,
             options := (recordVote poll username option).options } },
       [Output.dbUpdate pollId
          { status := none, votes := (recordVote poll username option).votes,
            totalVotes := (recordVote poll username option).totalVotes,
            options := (recordVote poll username option).options },
        Output.broadcast
          (ServerEvent.pollResults (voteCounts (recordVote poll username option).options))]) := by
  simp [submitAnswer, h, ht]

theorem submitAnswer_store_failed (s : ServerState) (sid : Nat)
    (username option pollId : String) (poll : Poll)
    (h : mapGet s.activePolls pollId = some poll)
    (ht : propTruthy poll.votes username = false) :
    submitAnswer s sid username option pollId false =
      ({ s with activePolls := mapSet s.activePolls pollId (recordVote poll username option) },
       [Output.emit sid (ServerEvent.error "Failed to submit answer")]) := by
  simp [submitAnswer, h, ht]

/-- Whatever the outcome of the database call, the registry after a vote that
passes both guards holds the session with the vote recorded. -/
theorem submitAnswer_activePolls (s : ServerState) (sid : Nat)
    (username option pollId : String) (storeOk : Bool) (poll : Poll)
    (h : mapGet s.activePolls pollId = some poll)
    (ht : propTruthy poll.votes username = false) :
    (submitAnswer s sid username option pollId storeOk).1.activePolls =
      mapSet s.activePolls pollId (recordVote poll username option) := by
  cases storeOk
  · rw [submitAnswer_store_failed s sid username option pollId poll h ht]
  · rw [submitAnswer_stored s sid username option pollId poll h ht]

theorem propTruthy_false_iff (votes : JsObject String) (username : String) :
    propTruthy votes username = false ↔
      objLookup votes username = some "" ∨
        (objLookup votes username = none ∧ username ∉ objectPrototypeKeys) := by
  unfold propTruthy
  cases h : objLookup votes username with
  | none => simp
  | some v => simp

theorem ne_proto_of_not_mem (username : String) (h : username ∉ objectPrototypeKeys) :
    username ≠ "__proto__" := by
  intro e
  apply h
  rw [e]
  decide

theorem objAssign_of_ne_proto {α : Type} (o : JsObject α) (k : String) (v : α)
    (h : k ≠ "__proto__") : objAssign o k v = objUpsert o k v := by
  simp [objAssign, h]

theorem objAssign_of_mem {α : Type} (o : JsObject α) (k : String) (v : α)
    (h : k ∈ objKeys o) : objAssign o k v = objUpsert o k v := by
  simp [objAssign, h]

/-- A user the guard lets through gets the vote written under the username. -/
theorem objAssign_of_not_truthy (votes : JsObject String) (username v : String)
    (ht : propTruthy votes username = false) :
    objAssign votes username v = objUpsert votes username v := by
  rcases (propTruthy_false_iff votes username).mp ht with h | h
  · apply objAssign_of_mem
    by_contra hc
    rw [(objLookup_eq_none_iff _ _).mpr hc] at h
    cases h
  · exact objAssign_of_ne_proto _ _ _ (ne_proto_of_not_mem username h.2)

theorem recordVote_votes (poll : Poll) (username option : String) :
    (recordVote poll username option).votes = objAssign poll.votes username option := by
  unfold recordVote
  cases findIndex (fun opt => decide (opt.text = option)) poll.options <;> rfl

theorem recordVote_totalVotes (poll : Poll) (username option : String) :
    (recordVote poll username option).totalVotes = poll.totalVotes + 1 := by
  unfold recordVote
  cases findIndex (fun opt => decide (opt.text = option)) poll.options <;> rfl

theorem recordVote_options_of_none (poll : Poll) (username option : String)
    (h : findIndex (fun opt => decide (opt.text = option)) poll.options = none) :
    (recordVote poll username option).options = poll.options := by
  unfold recordVote
  rw [h]

theorem recordVote_options_of_some (poll : Poll) (username option : String) (i : Nat)
    (h : findIndex (fun opt => decide (opt.text = option)) poll.options = some i) :
    (recordVote poll username option).options =
      modifyAt (fun o => { o with votes := o.votes + 1 }) poll.options i := by
  unfold recordVote
  rw [h]

theorem recordVote_texts (poll : Poll) (username option : String) :
    (recordVote poll username option).options.map (fun o => o.text) =
      poll.options.map (fun o => o.text) := by
  cases h : findIndex (fun opt => decide (opt.text = option)) poll.options with
  | none => rw [recordVote_options_of_none poll username option h]
  | some i => rw [recordVote_options_of_some poll username option i h, map_text_modifyAt]

end IntervuePoll

namespace IntervuePoll

/-! ## The tally invariant -/

theorem tallyInv_recordVote (texts : List String) (poll : Poll) (username option : String)
    (hinv : TallyInv texts poll) (hopt : option ∈ texts)
    (ht : propTruthy poll.votes username = false) (hne : option ≠ "") :
    TallyInv texts (recordVote poll username option) := by
  obtain ⟨htexts, htotal, hsum, hnodup, hvals⟩ := hinv
  -- the user has no own entry, and is not an inherited name
  have hfresh : objLookup poll.votes username = none ∧ username ∉ objectPrototypeKeys := by
    rcases (propTruthy_false_iff poll.votes username).mp ht with h | h
    · exact absurd rfl (hvals username "" h)
    · exact h
  have hkey : username ∉ objKeys poll.votes := (objLookup_eq_none_iff _ _).mp hfresh.1
  have hproto : username ≠ "__proto__" := ne_proto_of_not_mem username hfresh.2
  have hvotes : (recordVote poll username option).votes = objUpsert poll.votes username option := by
    rw [recordVote_votes, objAssign_of_ne_proto _ _ _ hproto]
  -- the option is found
  have hmem : option ∈ poll.options.map (fun o => o.text) := htexts ▸ hopt
  obtain ⟨x, hx, hxt⟩ := List.mem_map.mp hmem
  obtain ⟨i, hi⟩ := findIndex_isSome_of_mem (fun opt => decide (opt.text = option))
    poll.options x hx (by simpa using hxt)
  obtain ⟨⟨y, hy, _⟩, _⟩ := findIndex_spec _ _ i hi
  have hoptions := recordVote_options_of_some poll username option i hi
  refine ⟨?_, ?_, ?_, ?_, ?_⟩
  · rw [recordVote_texts]; exact htexts
  · rw [recordVote_totalVotes, hoptions, sumVotes_modifyAt poll.options i y hy, htotal]
  · rw [hoptions, sumVotes_modifyAt poll.options i y hy, hvotes,
      objKeys_objUpsert_of_not_mem _ _ _ hkey, hsum]
    simp
  · rw [hvotes, objKeys_objUpsert_of_not_mem _ _ _ hkey]
    exact List.Nodup.append hnodup (List.nodup_singleton username)
      (fun a ha hb => hkey ((List.mem_singleton.mp hb) ▸ ha))
  · intro k v hk
    rw [hvotes] at hk
    by_cases hku : k = username
    · subst hku
      rw [objLookup_objUpsert_self] at hk
      cases hk
      exact hne
    · rw [objLookup_objUpsert_ne _ _ _ _ hku] at hk
      exact hvals k v hk

theorem tallyInv_submitAnswer (texts : List String) (s : ServerState) (sid : Nat)
    (username option pollId : String) (storeOk : Bool) (poll : Poll)
    (hlive : mapGet s.activePolls pollId = some poll) (hinv : TallyInv texts poll)
    (hopt : option ∈ texts) (hne : option ≠ "") :
    ∃ live, mapGet (submitAnswer s sid username option pollId storeOk).1.activePolls pollId
        = some live ∧ TallyInv texts live := by
  cases ht : propTruthy poll.votes username with
  | true =>
      rw [submitAnswer_duplicate s sid username option pollId storeOk poll hlive ht]
      exact ⟨poll, hlive, hinv⟩
  | false =>
      rw [submitAnswer_activePolls s sid username option pollId storeOk poll hlive ht,
        mapGet_mapSet_self]
      exact ⟨_, rfl, tallyInv_recordVote texts poll username option hinv hopt ht hne⟩

theorem tallyInv_submitAll (texts : List String) (pollId : String) (subs : List Submission)
    (s : ServerState) (poll : Poll)
    (hlive : mapGet s.activePolls pollId = some poll) (hinv : TallyInv texts poll)
    (hopts : ∀ e ∈ subs, e.option ∈ texts) (hne : "" ∉ texts) :
    ∃ live, mapGet (submitAll s pollId subs).activePolls pollId = some live ∧
      TallyInv texts live := by
  induction subs generalizing s poll with
  | nil => exact ⟨poll, hlive, hinv⟩
  | cons e es ih =>
      have he : e.option ∈ texts := hopts e (List.mem_cons_self e es)
      have hne2 : e.option ≠ "" := fun h => hne (h ▸ he)
      obtain ⟨live, hl, hi⟩ := tallyInv_submitAnswer texts s e.sid e.username e.option pollId
        e.storeOk poll hlive hinv he hne2
      exact ih _ live hl hi (fun x hx => hopts x (List.mem_cons_of_mem e hx))

/-! ## The handler `createPoll` -/

theorem newPoll_spec (pollData : PollData) (poll : Poll) (h : newPoll pollData = some poll) :
    poll.options = newOptions pollData.options ∧ poll.votes = [] ∧ poll.totalVotes = 0 ∧
      poll.status = PollStatus.active ∧ poll.question = pollData.question ∧
      pollData.options.all optionValid = true ∧ parseInt pollData.timer = some poll.timer ∧
      30 ≤ poll.timer ∧ poll.timer ≤ 90 ∧ jsLength pollData.question ≤ 100 := by
  unfold newPoll at h
  cases ht : parseInt pollData.timer with
  | none => simp [ht] at h
  | some timer =>
      simp only [ht] at h
      split_ifs at h with hc
      cases h
      exact ⟨rfl, rfl, rfl, rfl, rfl, hc.2.2.2.2.2, rfl, hc.2.2.1, hc.2.2.2.1, hc.2.1⟩

theorem save_spec (db : List (String × Poll)) (newId : String) (pollData : PollData)
    (storeOk : Bool) (poll : Poll) (h : save db newId pollData storeOk = some poll) :
    newPoll pollData = some poll ∧ storeOk = true ∧ newId ∉ objKeys db := by
  unfold save at h
  cases hn : newPoll pollData with
  | none => simp [hn] at h
  | some doc =>
      simp only [hn] at h
      split_ifs at h with hc
      cases h
      exact ⟨rfl, hc.1, hc.2⟩

theorem createPoll_saved (s : ServerState) (sid : Nat) (pollData : PollData) (newId : String)
    (storeOk : Bool) (poll : Poll) (h : save s.db newId pollData storeOk = some poll) :
    createPoll s sid pollData newId storeOk =
      ({ s with
         db := s.db ++ [(newId, poll)]
         activePolls := mapSet s.activePolls newId { poll with votes := [], totalVotes := 0 } },
       [Output.dbInsert newId poll,
        Output.broadcast
          (ServerEvent.pollCreated newId pollData.question poll.options poll.timer),
        Output.setTimeout newId (poll.timer * 1000)]) := by
  simp [createPoll, h]

theorem createPoll_failed (s : ServerState) (sid : Nat) (pollData : PollData) (newId : String)
    (storeOk : Bool) (h : save s.db newId pollData storeOk = none) :
    createPoll s sid pollData newId storeOk =
      (s, [Output.emit sid (ServerEvent.error "Failed to create poll")]) := by
  simp [createPoll, h]

theorem sumVotes_newOptions (options : List OptionInput) : sumVotes (newOptions options) = 0 := by
  induction options with
  | nil => rfl
  | cons o os ih =>
      simp only [sumVotes, newOptions, List.map_cons, List.sum_cons] at ih ⊢
      omega

theorem texts_newOptions (options : List OptionInput) :
    (newOptions options).map (fun o => o.text) = options.map (fun o => o.text) := by
  simp [newOptions, Function.comp_def]

theorem empty_not_text_of_valid (options : List OptionInput)
    (h : options.all optionValid = true) : "" ∉ options.map (fun o => o.text) := by
  intro hm
  obtain ⟨o, ho, hot⟩ := List.mem_map.mp hm
  have hv := List.all_eq_true.mp h o ho
  simp [optionValid, hot] at hv

/-- The session `createPoll` registers satisfies the tally invariant. -/
theorem tallyInv_created (pollData : PollData) (poll : Poll)
    (h : newPoll pollData = some poll) :
    TallyInv (pollData.options.map (fun o => o.text))
      { poll with votes := [], totalVotes := 0 } := by
  obtain ⟨hopts, _⟩ := newPoll_spec pollData poll h
  refine ⟨?_, ?_, ?_, ?_, ?_⟩
  · show poll.options.map (fun o => o.text) = _
    rw [hopts, texts_newOptions]
  · show 0 = sumVotes poll.options
    rw [hopts, sumVotes_newOptions]
  · show sumVotes poll.options = _
    rw [hopts, sumVotes_newOptions]; rfl
  · exact List.nodup_nil
  · intro k v hk
    simp [objLookup] at hk

end IntervuePoll

namespace IntervuePoll

/-! ## Claims C1 to C3: the tally and the two rejections -/

/-- C1 (as amended): for every poll registered by `createPoll` and every
finite sequence of `submitAnswer` events on it whose option strings are each
the text of one of the poll's options, the live session in `activePolls`
satisfies `totalVotes` = sum of the option counts = number of keys of the
vote map (the keys being distinct).  Every prefix of a sequence is a sequence,
so the equalities hold after each event. -/
theorem C1_tally_invariant_listed_options (s : ServerState) (sid : Nat) (pollData : PollData)
    (newId : String) (storeOk : Bool)
    (hsaved : (save s.db newId pollData storeOk).isSome = true)
    (subs : List Submission)
    (hopts : ∀ e ∈ subs, e.option ∈ pollData.options.map (fun o => o.text)) :
    ∃ live,
      mapGet (submitAll (createPoll s sid pollData newId storeOk).1 newId subs).activePolls newId
        = some live ∧
      live.totalVotes = sumVotes live.options ∧
      sumVotes live.options = (objKeys live.votes).length ∧
      (objKeys live.votes).Nodup := by
  obtain ⟨poll, hpoll⟩ := Option.isSome_iff_exists.mp hsaved
  obtain ⟨hnew, _, _⟩ := save_spec s.db newId pollData storeOk poll hpoll
  obtain ⟨_, _, _, _, _, hvalid, _⟩ := newPoll_spec pollData poll hnew
  rw [createPoll_saved s sid pollData newId storeOk poll hpoll]
  obtain ⟨live, hl, hi⟩ := tallyInv_submitAll (pollData.options.map (fun o => o.text)) newId subs
    { s with
      db := s.db ++ [(newId, poll)]
      activePolls := mapSet s.activePolls newId { poll with votes := [], totalVotes := 0 } }
    { poll with votes := [], totalVotes := 0 } (mapGet_mapSet_self _ _ _)
    (tallyInv_created pollData poll hnew) hopts (empty_not_text_of_valid _ hvalid)
  exact ⟨live, hl, hi.2.1, hi.2.2.1, hi.2.2.2.1⟩

/-- C1, instance: the example poll, then "alice" votes "4" and "bob" votes "5". -/
theorem C1_tally_invariant_witness :
    (save ServerState.init.db "p1" examplePollData true).isSome = true ∧
    (∀ e ∈ [Submission.mk 2 "alice" "4" true, Submission.mk 3 "bob" "5" true],
      e.option ∈ examplePollData.options.map (fun o => o.text)) ∧
    ∃ live,
      mapGet (submitAll (createPoll ServerState.init 1 examplePollData "p1" true).1 "p1"
        [Submission.mk 2 "alice" "4" true, Submission.mk 3 "bob" "5" true]).activePolls "p1"
        = some live ∧
      live.totalVotes = sumVotes live.options ∧
      sumVotes live.options = (objKeys live.votes).length ∧
      (objKeys live.votes).Nodup :=
  ⟨by decide, by decide,
   C1_tally_invariant_listed_options ServerState.init 1 examplePollData "p1" true (by decide)
     [Submission.mk 2 "alice" "4" true, Submission.mk 3 "bob" "5" true] (by decide)⟩

/-- C1 as stated fails: on the example poll with options "4" and "5", one
`submitAnswer` by "alice" naming "6" leaves `totalVotes` 1 and one key in the
vote map, while the option counts sum to 0. -/
theorem C1_counterexample_unlisted_option :
    (mapGet (submitAll exampleState "p1" [Submission.mk 2 "alice" "6" true]).activePolls
        "p1").map (fun p => (p.totalVotes, sumVotes p.options, (objKeys p.votes).length))
      = some (1, 0, 1) := by
  decide

/-- C2, the code at the failing input: on the example poll "alice" first
submits the empty string, which is recorded; her next `submitAnswer`, naming
"4", is not rejected: it is written to the store and broadcast, her entry is
replaced and `totalVotes` becomes 2 with a single key in the vote map. -/
theorem C2_second_vote_after_empty_option :
    (submitAnswer exampleState 2 "alice" "" "p1" true).2 =
      [Output.dbUpdate "p1"
         { status := none, votes := [("alice", "")], totalVotes := 1,
           options := [PollOption.mk "4" true 0, PollOption.mk "5" false 0] },
       Output.broadcast (ServerEvent.pollResults [("4", 0), ("5", 0)])] ∧
    (submitAnswer (submitAnswer exampleState 2 "alice" "" "p1" true).1 2 "alice" "4" "p1"
        true).2 =
      [Output.dbUpdate "p1"
         { status := none, votes := [("alice", "4")], totalVotes := 2,
           options := [PollOption.mk "4" true 1, PollOption.mk "5" false 0] },
       Output.broadcast (ServerEvent.pollResults [("4", 1), ("5", 0)])] := by
  decide

/-- C3 (as amended): for every active poll and every option string that is
not the text of any of its options, `submitAnswer` leaves every option's vote
count unchanged, but the string is not a reason to reject: when the guard on
`votes[username]` lets the participant through, the string is recorded as the
participant's vote, `totalVotes` grows by one, and the handler goes on to the
store write and the `pollResults` broadcast of the unchanged counts (the
client gets 'Failed to submit answer' only if that write fails). -/
theorem C3_unlisted_option_is_recorded (s : ServerState) (sid : Nat)
    (username option pollId : String) (storeOk : Bool) (poll : Poll)
    (hlive : mapGet s.activePolls pollId = some poll)
    (hunlisted : ∀ opt ∈ poll.options, opt.text ≠ option) :
    ∃ live,
      mapGet (submitAnswer s sid username option pollId storeOk).1.activePolls pollId
        = some live ∧
      live.options = poll.options ∧
      (propTruthy poll.votes username = false →
        objLookup live.votes username = some option ∧
        live.totalVotes = poll.totalVotes + 1 ∧
        (submitAnswer s sid username option pollId storeOk).2 =
          if storeOk = true then
            [Output.dbUpdate pollId
               { status := none, votes := live.votes, totalVotes := live.totalVotes,
                 options := poll.options },
             Output.broadcast (ServerEvent.pollResults (voteCounts poll.options))]
          else [Output.emit sid (ServerEvent.error "Failed to submit answer")]) := by
  have hnone : findIndex (fun opt => decide (opt.text = option)) poll.options = none :=
    findIndex_eq_none _ _ (fun x hx => by simpa using hunlisted x hx)
  have hoptions := recordVote_options_of_none poll username option hnone
  cases ht : propTruthy poll.votes username with
  | true =>
      rw [submitAnswer_duplicate s sid username option pollId storeOk poll hlive ht]
      exact ⟨poll, hlive, rfl, fun h => by cases h⟩
  | false =>
      refine ⟨recordVote poll username option, ?_, hoptions, fun _ => ⟨?_, ?_, ?_⟩⟩
      · rw [submitAnswer_activePolls s sid username option pollId storeOk poll hlive ht,
          mapGet_mapSet_self]
      · rw [recordVote_votes, objAssign_of_not_truthy _ _ _ ht, objLookup_objUpsert_self]
      · exact recordVote_totalVotes poll username option
      · cases storeOk
        · rw [submitAnswer_store_failed s sid username option pollId poll hlive ht]
          simp
        · rw [submitAnswer_stored s sid username option pollId poll hlive ht, hoptions]
          simp

/-- C3, instance: "alice" names "6" on the example poll with options "4", "5". -/
theorem C3_unlisted_option_witness :
    mapGet exampleState.activePolls "p1" = some exampleSession ∧
    (∀ opt ∈ exampleSession.options, opt.text ≠ "6") ∧
    ∃ live,
      mapGet (submitAnswer exampleState 2 "alice" "6" "p1" true).1.activePolls "p1"
        = some live ∧
      live.options = exampleSession.options ∧
      (propTruthy exampleSession.votes "alice" = false →
        objLookup live.votes "alice" = some "6" ∧
        live.totalVotes = exampleSession.totalVotes + 1 ∧
        (submitAnswer exampleState 2 "alice" "6" "p1" true).2 =
          if true = true then
            [Output.dbUpdate "p1"
               { status := none, votes := live.votes, totalVotes := live.totalVotes,
                 options := exampleSession.options },
             Output.broadcast (ServerEvent.pollResults (voteCounts exampleSession.options))]
          else [Output.emit 2 (ServerEvent.error "Failed to submit answer")]) :=
  ⟨by decide, by decide,
   C3_unlisted_option_is_recorded exampleState 2 "alice" "6" "p1" true exampleSession
     (by decide) (by decide)⟩

/-- C3 as stated fails: on the example poll, whose options are "4" and "5",
a `submitAnswer` by "alice" naming "6" draws no error; the vote is stored and
broadcast, and the vote map and `totalVotes` change. -/
theorem C3_counterexample_unlisted_option_accepted :
    submitAnswer exampleState 2 "alice" "6" "p1" true =
      ({ exampleState with
         activePolls := [("p1", { exampleSession with votes := [("alice", "6")], totalVotes := 1 })]
         db := [("p1", { exampleSession with votes := [("alice", "6")], totalVotes := 1 })] },
       [Output.dbUpdate "p1"
          { status := none, votes := [("alice", "6")], totalVotes := 1,
            options := exampleSession.options },
        Output.broadcast (ServerEvent.pollResults [("4", 0), ("5", 0)])]) := by
  decide

end IntervuePoll

namespace IntervuePoll

/-! ## What each handler leaves alone -/

theorem joinChat_polls (s : ServerState) (sid : Nat) (username : String) :
    (joinChat s sid username).1.activePolls = s.activePolls ∧
      (joinChat s sid username).1.db = s.db := ⟨rfl, rfl⟩

theorem chatMessage_polls (s : ServerState) (message : List (String × String))
    (timestamp id : Nat) :
    (chatMessage s message timestamp id).1.activePolls = s.activePolls ∧
      (chatMessage s message timestamp id).1.db = s.db := ⟨rfl, rfl⟩

theorem disconnect_polls (s : ServerState) (sock : Socket) :
    (disconnect s sock).1.activePolls = s.activePolls ∧ (disconnect s sock).1.db = s.db := by
  unfold disconnect
  cases sock.username with
  | none => exact ⟨rfl, rfl⟩
  | some u => by_cases h : u = "" <;> simp [h]

theorem kickAll_polls (targets : List Socket) (s : ServerState) :
    (kickAll s targets).1.activePolls = s.activePolls ∧ (kickAll s targets).1.db = s.db := by
  induction targets generalizing s with
  | nil => exact ⟨rfl, rfl⟩
  | cons t ts ih =>
      have h1 := disconnect_polls s t
      have h2 := ih (disconnect s t).1
      simp only [kickAll]
      exact ⟨h2.1.trans h1.1, h2.2.trans h1.2⟩

theorem kickOut_polls (s : ServerState) (sid : Nat) (username : String) :
    (kickOut s sid username).1.activePolls = s.activePolls ∧
      (kickOut s sid username).1.db = s.db := by
  unfold kickOut
  split
  · exact ⟨rfl, rfl⟩
  · split
    · exact kickAll_polls _ s
    · exact ⟨rfl, rfl⟩

theorem endPoll_not_found (s : ServerState) (pollId : String) (storeOk : Bool)
    (h : mapGet s.activePolls pollId = none) : endPoll s pollId storeOk = (s, []) := by
  simp [endPoll, h]

theorem endPoll_store_failed (s : ServerState) (pollId : String) :
    endPoll s pollId false = (s, []) := by
  unfold endPoll
  cases mapGet s.activePolls pollId <;> simp

theorem endPoll_stored (s : ServerState) (pollId : String) (poll : Poll)
    (h : mapGet s.activePolls pollId = some poll) :
    endPoll s pollId true =
      ({ s with
         db := findByIdAndUpdate s.db pollId
           { status := some PollStatus.completed, votes := poll.votes,
             totalVotes := poll.totalVotes, options := poll.options }
         activePolls := mapDelete s.activePolls pollId },
       [Output.dbUpdate pollId
          { status := some PollStatus.completed, votes := poll.votes,
            totalVotes := poll.totalVotes, options := poll.options }]) := by
  simp [endPoll, h]

/-- The handler `submitAnswer` never changes which identifiers are in the
registry or in the collection. -/
theorem submitAnswer_keys (s : ServerState) (sid : Nat) (username option pollId : String)
    (storeOk : Bool) :
    objKeys (submitAnswer s sid username option pollId storeOk).1.activePolls
        = objKeys s.activePolls ∧
      objKeys (submitAnswer s sid username option pollId storeOk).1.db = objKeys s.db := by
  cases hlive : mapGet s.activePolls pollId with
  | none => rw [submitAnswer_not_found s sid username option pollId storeOk hlive]; simp
  | some poll =>
      have hmem : pollId ∈ objKeys s.activePolls :=
        (mapGet_isSome_iff _ _).mp (by rw [hlive]; rfl)
      cases ht : propTruthy poll.votes username with
      | true =>
          rw [submitAnswer_duplicate s sid username option pollId storeOk poll hlive ht]; simp
      | false =>
          cases storeOk
          · rw [submitAnswer_store_failed s sid username option pollId poll hlive ht]
            exact ⟨objKeys_objUpsert_of_mem _ _ _ hmem, rfl⟩
          · rw [submitAnswer_stored s sid username option pollId poll hlive ht]
            exact ⟨objKeys_objUpsert_of_mem _ _ _ hmem, objKeys_findByIdAndUpdate _ _ _⟩

/-- A vote on one poll leaves the session of every other identifier as it is. -/
theorem submitAnswer_other (s : ServerState) (sid : Nat) (username option pollId other : String)
    (storeOk : Bool) (hne : other ≠ pollId) :
    mapGet (submitAnswer s sid username option pollId storeOk).1.activePolls other
      = mapGet s.activePolls other := by
  cases hlive : mapGet s.activePolls pollId with
  | none => rw [submitAnswer_not_found s sid username option pollId storeOk hlive]
  | some poll =>
      cases ht : propTruthy poll.votes username with
      | true => rw [submitAnswer_duplicate s sid username option pollId storeOk poll hlive ht]
      | false =>
          rw [submitAnswer_activePolls s sid username option pollId storeOk poll hlive ht]
          exact mapGet_mapSet_ne _ _ _ _ hne

theorem objKeys_append {α : Type} (a b : JsObject α) :
    objKeys (a ++ b) = objKeys a ++ objKeys b := by
  simp [objKeys]

/-! ## Invariants of runs -/

theorem closed_step (pollId : String) (s : ServerState) (e : Event) (h : Closed pollId s) :
    Closed pollId (step s e).1 := by
  obtain ⟨hdb, hreg⟩ := h
  cases e with
  | connection sid =>
      simp only [step]
      cases findSocket s sid <;> exact ⟨hdb, hreg⟩
  | joinChat sid username =>
      simp only [step]
      cases findSocket s sid with
      | none => exact ⟨hdb, hreg⟩
      | some k => exact ⟨hdb, hreg⟩
  | chatMessage sid message timestamp id =>
      simp only [step]
      cases findSocket s sid with
      | none => exact ⟨hdb, hreg⟩
      | some k => exact ⟨hdb, hreg⟩
  | createPoll sid pollData newId storeOk =>
      simp only [step]
      cases findSocket s sid with
      | none => exact ⟨hdb, hreg⟩
      | some k =>
          cases hs : save s.db newId pollData storeOk with
          | none =>
              rw [createPoll_failed s sid pollData newId storeOk hs]
              exact ⟨hdb, hreg⟩
          | some poll =>
              rw [createPoll_saved s sid pollData newId storeOk poll hs]
              obtain ⟨_, _, hfresh⟩ := save_spec _ _ _ _ _ hs
              have hne : pollId ≠ newId := fun e => hfresh (e ▸ hdb)
              refine ⟨?_, ?_⟩
              · show pollId ∈ objKeys (s.db ++ [(newId, poll)])
                rw [objKeys_append]
                exact List.mem_append_left _ hdb
              · show mapGet (mapSet s.activePolls newId _) pollId = none
                rw [mapGet_mapSet_ne _ _ _ _ hne]
                exact hreg
  | submitAnswer sid username option pid storeOk =>
      simp only [step]
      cases findSocket s sid with
      | none => exact ⟨hdb, hreg⟩
      | some k =>
          refine ⟨?_, ?_⟩
          · rw [(submitAnswer_keys s sid username option pid storeOk).2]; exact hdb
          · by_cases hp : pollId = pid
            · subst hp
              rw [submitAnswer_not_found s sid username option pollId storeOk hreg]
              exact hreg
            · rw [submitAnswer_other s sid username option pid pollId storeOk hp]
              exact hreg
  | kickOut sid username =>
      simp only [step]
      cases findSocket s sid with
      | none => exact ⟨hdb, hreg⟩
      | some k =>
          have h := kickOut_polls s sid username
          exact ⟨by rw [h.2]; exact hdb, by rw [h.1]; exact hreg⟩
  | disconnect sid =>
      simp only [step]
      cases findSocket s sid with
      | none => exact ⟨hdb, hreg⟩
      | some k =>
          have h := disconnect_polls s k
          exact ⟨by rw [h.2]; exact hdb, by rw [h.1]; exact hreg⟩
  | timeout pid storeOk =>
      simp only [step]
      cases hlive : mapGet s.activePolls pid with
      | none => rw [endPoll_not_found s pid storeOk hlive]; exact ⟨hdb, hreg⟩
      | some poll =>
          cases storeOk
          · rw [endPoll_store_failed]; exact ⟨hdb, hreg⟩
          · rw [endPoll_stored s pid poll hlive]
            have hne : pollId ≠ pid := by
              intro e
              rw [e] at hreg
              rw [hreg] at hlive
              cases hlive
            refine ⟨?_, ?_⟩
            · show pollId ∈ objKeys (findByIdAndUpdate s.db pid _)
              rw [objKeys_findByIdAndUpdate]; exact hdb
            · show mapGet (mapDelete s.activePolls pid) pollId = none
              rw [mapGet_mapDelete_ne _ _ _ hne]; exact hreg

theorem closed_run (pollId : String) (es : List Event) (s : ServerState)
    (h : Closed pollId s) : Closed pollId (run s es) := by
  induction es generalizing s with
  | nil => exact h
  | cons e es ih => exact ih (step s e).1 (closed_step pollId s e h)

theorem registryStored_step (s : ServerState) (e : Event) (h : RegistryStored s) :
    RegistryStored (step s e).1 := by
  cases e with
  | connection sid =>
      simp only [step]
      cases findSocket s sid <;> exact h
  | joinChat sid username =>
      simp only [step]
      cases findSocket s sid with
      | none => exact h
      | some k => exact h
  | chatMessage sid message timestamp id =>
      simp only [step]
      cases findSocket s sid with
      | none => exact h
      | some k => exact h
  | createPoll sid pollData newId storeOk =>
      simp only [step]
      cases findSocket s sid with
      | none => exact h
      | some k =>
          cases hs : save s.db newId pollData storeOk with
          | none =>
              rw [createPoll_failed s sid pollData newId storeOk hs]
              exact h
          | some poll =>
              rw [createPoll_saved s sid pollData newId storeOk poll hs]
              intro key hkey
              have hkey2 : key = newId ∨ key ∈ objKeys s.activePolls :=
                (mem_objKeys_objUpsert _ _ _ _).mp hkey
              show key ∈ objKeys (s.db ++ [(newId, poll)])
              rw [objKeys_append]
              rcases hkey2 with e | e
              · exact List.mem_append_right _ (by simp [objKeys, e])
              · exact List.mem_append_left _ (h key e)
  | submitAnswer sid username option pid storeOk =>
      simp only [step]
      cases findSocket s sid with
      | none => exact h
      | some k =>
          intro key hkey
          rw [(submitAnswer_keys s sid username option pid storeOk).1] at hkey
          rw [(submitAnswer_keys s sid username option pid storeOk).2]
          exact h key hkey
  | kickOut sid username =>
      simp only [step]
      cases findSocket s sid with
      | none => exact h
      | some k =>
          have hp := kickOut_polls s sid username
          intro key hkey
          rw [hp.1] at hkey
          rw [hp.2]
          exact h key hkey
  | disconnect sid =>
      simp only [step]
      cases findSocket s sid with
      | none => exact h
      | some k =>
          have hp := disconnect_polls s k
          intro key hkey
          rw [hp.1] at hkey
          rw [hp.2]
          exact h key hkey
  | timeout pid storeOk =>
      simp only [step]
      cases hlive : mapGet s.activePolls pid with
      | none => rw [endPoll_not_found s pid storeOk hlive]; exact h
      | some poll =>
          cases storeOk
          · rw [endPoll_store_failed]; exact h
          · rw [endPoll_stored s pid poll hlive]
            intro key hkey
            have hkey2 : key ∈ objKeys (mapDelete s.activePolls pid) := hkey
            show key ∈ objKeys (findByIdAndUpdate s.db pid _)
            rw [objKeys_findByIdAndUpdate]
            exact h key ((mem_objKeys_mapDelete _ _ _).mp hkey2).2

theorem registryStored_run (es : List Event) (s : ServerState) (h : RegistryStored s) :
    RegistryStored (run s es) := by
  induction es generalizing s with
  | nil => exact h
  | cons e es ih => exact ih (step s e).1 (registryStored_step s e h)

theorem registryStored_init : RegistryStored ServerState.init := by
  intro k hk
  simp [ServerState.init, objKeys] at hk

/-- A successful `endPoll` on a live poll with a stored document closes it. -/
theorem closed_endPoll (s : ServerState) (pollId : String) (hstored : RegistryStored s)
    (hlive : mapHas s.activePolls pollId = true) : Closed pollId (endPoll s pollId true).1 := by
  have hmem : pollId ∈ objKeys s.activePolls := (mapGet_isSome_iff _ _).mp hlive
  cases hp : mapGet s.activePolls pollId with
  | none =>
      have := (objLookup_eq_none_iff s.activePolls pollId).mp hp
      exact absurd hmem this
  | some poll =>
      rw [endPoll_stored s pollId poll hp]
      refine ⟨?_, ?_⟩
      · show pollId ∈ objKeys (findByIdAndUpdate s.db pollId _)
        rw [objKeys_findByIdAndUpdate]
        exact hstored pollId hmem
      · show mapGet (mapDelete s.activePolls pollId) pollId = none
        exact mapGet_mapDelete_self _ _

end IntervuePoll

namespace IntervuePoll

/-! ## The payload of `pollResults` -/

theorem objLookup_objAssign {α : Type} (o : JsObject α) (k t : String) (v : α)
    (ht : t ≠ "__proto__") :
    objLookup (objAssign o k v) t = if k = t then some v else objLookup o t := by
  by_cases hk : k = t
  · subst hk
    rw [objAssign_of_ne_proto _ _ _ ht, objLookup_objUpsert_self, if_pos rfl]
  · rw [if_neg hk]
    unfold objAssign
    split
    · rfl
    · exact objLookup_objUpsert_ne _ _ _ _ (fun e => hk e.symm)

theorem proto_not_mem_objAssign {α : Type} (o : JsObject α) (k : String) (v : α)
    (h : "__proto__" ∉ objKeys o) : "__proto__" ∉ objKeys (objAssign o k v) := by
  unfold objAssign
  split
  · exact h
  · rename_i hc
    intro hm
    rcases (mem_objKeys_objUpsert _ _ _ _).mp hm with e | e
    · exact hc ⟨e.symm, e ▸ h⟩
    · exact h e

theorem proto_not_mem_foldl (options : List PollOption) (acc : JsObject Nat)
    (h : "__proto__" ∉ objKeys acc) :
    "__proto__" ∉ objKeys
      (options.foldl (fun acc opt => objAssign acc opt.text opt.votes) acc) := by
  induction options generalizing acc with
  | nil => exact h
  | cons o os ih => exact ih _ (proto_not_mem_objAssign acc o.text o.votes h)

theorem lastWithText_cons (o : PollOption) (os : List PollOption) (t : String) :
    lastWithText (o :: os) t =
      match lastWithText os t with
      | some x => some x
      | none => if o.text = t then some o else none := by
  unfold lastWithText
  by_cases h : o.text = t
  · rw [List.filter_cons_of_pos (by simpa using h), List.getLast?_cons]
    cases List.getLast? (List.filter (fun o => decide (o.text = t)) os) <;> simp [h]
  · rw [List.filter_cons_of_neg (by simpa using h)]
    cases List.getLast? (List.filter (fun o => decide (o.text = t)) os) <;> simp [h]

theorem objLookup_foldl_assign (options : List PollOption) (acc : JsObject Nat) (t : String)
    (ht : t ≠ "__proto__") :
    objLookup (options.foldl (fun acc opt => objAssign acc opt.text opt.votes) acc) t =
      match lastWithText options t with
      | some x => some x.votes
      | none => objLookup acc t := by
  induction options generalizing acc with
  | nil => rfl
  | cons o os ih =>
      rw [List.foldl_cons, ih, lastWithText_cons]
      cases lastWithText os t with
      | some x => rfl
      | none =>
          rw [objLookup_objAssign _ _ _ _ ht]
          by_cases h : o.text = t <;> simp [h]

/-- The payload of `pollResults` maps a text other than `__proto__` to the
count of the last option with that text, and has no other key. -/
theorem objLookup_voteCounts (options : List PollOption) (t : String)
    (ht : t ≠ "__proto__") :
    objLookup (voteCounts options) t = (lastWithText options t).map (fun o => o.votes) := by
  unfold voteCounts
  rw [objLookup_foldl_assign options [] t ht]
  cases lastWithText options t <;> rfl

theorem objLookup_voteCounts_proto (options : List PollOption) :
    objLookup (voteCounts options) "__proto__" = none :=
  (objLookup_eq_none_iff _ _).mpr
    (proto_not_mem_foldl options [] (by simp [objKeys]))

theorem lastWithText_eq_none (os : List PollOption) (t : String)
    (h : t ∉ os.map (fun o => o.text)) : lastWithText os t = none := by
  unfold lastWithText
  have : List.filter (fun o => decide (o.text = t)) os = [] := by
    rw [List.filter_eq_nil_iff]
    intro o ho
    have : o.text ≠ t := fun e => h (List.mem_map.mpr ⟨o, ho, e⟩)
    simpa using this
  rw [this]
  rfl

theorem lastWithText_of_nodup (os : List PollOption) (opt : PollOption)
    (hnodup : (os.map (fun o => o.text)).Nodup) (hmem : opt ∈ os) :
    lastWithText os opt.text = some opt := by
  induction os with
  | nil => cases hmem
  | cons o rest ih =>
      rw [List.map_cons, List.nodup_cons] at hnodup
      rw [lastWithText_cons]
      rcases List.mem_cons.mp hmem with e | e
      · subst e
        rw [lastWithText_eq_none rest opt.text hnodup.1]
        simp
      · rw [ih hnodup.2 e]

end IntervuePoll

namespace IntervuePoll

/-! ## Claims C4, C5, C8: closing a poll -/

/-- C4 (as amended): for every poll identifier that is live in a state the
server reached from start-up, once `endPoll` has run for it with its store
write resolved, a `submitAnswer` naming that identifier after any further
events is rejected with 'Poll not found or expired', sent to the originating
client only; nothing else is sent and the state (registry, tallies, store) is
unchanged. -/
theorem C4_closed_poll_rejects_votes (pre : List Event) (pollId : String)
    (hlive : mapHas (run ServerState.init pre).activePolls pollId = true)
    (post : List Event) (sid : Nat) (username option : String) (storeOk : Bool) :
    submitAnswer (run (endPoll (run ServerState.init pre) pollId true).1 post)
        sid username option pollId storeOk =
      (run (endPoll (run ServerState.init pre) pollId true).1 post,
       [Output.emit sid (ServerEvent.error "Poll not found or expired")]) := by
  have hstored : RegistryStored (run ServerState.init pre) :=
    registryStored_run pre _ registryStored_init
  have hclosed := closed_run pollId post _ (closed_endPoll _ pollId hstored hlive)
  exact submitAnswer_not_found _ sid username option pollId storeOk hclosed.2

/-- C4, instance: the example poll is created, closed, and then "bob" votes,
the same identifier is offered again to `createPoll`, and "alice" votes. -/
theorem C4_closed_poll_witness :
    mapHas (run ServerState.init
      [Event.connection 1, Event.createPoll 1 examplePollData "p1" true]).activePolls "p1"
        = true ∧
    submitAnswer
        (run (endPoll (run ServerState.init
          [Event.connection 1, Event.createPoll 1 examplePollData "p1" true]) "p1" true).1
          [Event.submitAnswer 1 "bob" "5" "p1" true,
           Event.createPoll 1 examplePollData "p1" true])
        1 "alice" "4" "p1" true =
      (run (endPoll (run ServerState.init
          [Event.connection 1, Event.createPoll 1 examplePollData "p1" true]) "p1" true).1
          [Event.submitAnswer 1 "bob" "5" "p1" true,
           Event.createPoll 1 examplePollData "p1" true],
       [Output.emit 1 (ServerEvent.error "Poll not found or expired")]) :=
  ⟨by decide,
   C4_closed_poll_rejects_votes
     [Event.connection 1, Event.createPoll 1 examplePollData "p1" true] "p1" (by decide)
     [Event.submitAnswer 1 "bob" "5" "p1" true, Event.createPoll 1 examplePollData "p1" true]
     1 "alice" "4" true⟩

/-- C4 as stated fails: when the store write of `endPoll` is rejected, the
example poll stays in the registry, and the `submitAnswer` that follows is
stored and broadcast instead of rejected. -/
theorem C4_counterexample_failed_close :
    mapHas (endPoll exampleState "p1" false).1.activePolls "p1" = true ∧
    (submitAnswer (endPoll exampleState "p1" false).1 2 "alice" "4" "p1" true).2 =
      [Output.dbUpdate "p1"
         { status := none, votes := [("alice", "4")], totalVotes := 1,
           options := [PollOption.mk "4" true 1, PollOption.mk "5" false 0] },
       Output.broadcast (ServerEvent.pollResults [("4", 1), ("5", 0)])] := by
  decide

/-- C5 (as amended): for every state and every poll identifier, if the first
run of `endPoll` has its store write resolved, or the identifier is not in the
registry, a second run right after it writes nothing to the store and changes
nothing: two runs leave the registry and the durable record of one run. -/
theorem C5_endPoll_idempotent (s : ServerState) (pollId : String) (ok1 ok2 : Bool)
    (hfirst : ok1 = true ∨ mapGet s.activePolls pollId = none) :
    endPoll (endPoll s pollId ok1).1 pollId ok2 = ((endPoll s pollId ok1).1, []) := by
  apply endPoll_not_found
  cases hp : mapGet s.activePolls pollId with
  | none => rw [endPoll_not_found s pollId ok1 hp]; exact hp
  | some poll =>
      rcases hfirst with h | h
      · subst h
        rw [endPoll_stored s pollId poll hp]
        exact mapGet_mapDelete_self _ _
      · rw [h] at hp
        cases hp

/-- C5, instance: the example poll closed twice. -/
theorem C5_endPoll_idempotent_witness :
    (true = true ∨ mapGet exampleState.activePolls "p1" = none) ∧
    endPoll (endPoll exampleState "p1" true).1 "p1" false =
      ((endPoll exampleState "p1" true).1, []) :=
  ⟨Or.inl rfl, C5_endPoll_idempotent exampleState "p1" true false (Or.inl rfl)⟩

/-- C5 as stated fails: when the store write of the first run is rejected and
that of the second resolves, the second run does write the store and does
remove the poll from the registry. -/
theorem C5_counterexample_second_run_writes :
    (endPoll exampleState "p1" false).1 = exampleState ∧
    endPoll (endPoll exampleState "p1" false).1 "p1" true =
      ({ exampleState with
         activePolls := []
         db := [("p1", { exampleSession with status := PollStatus.completed })] },
       [Output.dbUpdate "p1"
          { status := some PollStatus.completed, votes := [], totalVotes := 0,
            options := exampleSession.options }]) := by
  decide

/-- C8 (as amended): for every poll identifier present in the registry, an
`endPoll` whose store write resolves issues one update that sets status
'completed' together with exactly the session's votes map, `totalVotes` and
options; the stored document, if any, then carries these fields, the other
documents are untouched, and the identifier no longer resolves in the
registry. -/
theorem C8_endPoll_flushes_and_evicts (s : ServerState) (pollId : String) (poll : Poll)
    (hlive : mapGet s.activePolls pollId = some poll) :
    (endPoll s pollId true).2 =
      [Output.dbUpdate pollId
         { status := some PollStatus.completed, votes := poll.votes,
           totalVotes := poll.totalVotes, options := poll.options }] ∧
    mapGet (endPoll s pollId true).1.db pollId =
      (mapGet s.db pollId).map (fun doc =>
        { doc with status := PollStatus.completed, votes := poll.votes,
                   totalVotes := poll.totalVotes, options := poll.options }) ∧
    (∀ other, other ≠ pollId →
      mapGet (endPoll s pollId true).1.db other = mapGet s.db other) ∧
    mapGet (endPoll s pollId true).1.activePolls pollId = none ∧
    mapHas (endPoll s pollId true).1.activePolls pollId = false := by
  rw [endPoll_stored s pollId poll hlive]
  refine ⟨rfl, ?_, ?_, ?_, ?_⟩
  · show mapGet (findByIdAndUpdate s.db pollId _) pollId = _
    rw [mapGet_findByIdAndUpdate, if_pos rfl]
    cases mapGet s.db pollId <;> rfl
  · intro other hne
    show mapGet (findByIdAndUpdate s.db pollId _) other = _
    rw [mapGet_findByIdAndUpdate, if_neg hne]
  · exact mapGet_mapDelete_self _ _
  · show (mapGet (mapDelete s.activePolls pollId) pollId).isSome = false
    rw [mapGet_mapDelete_self]
    rfl

/-- C8, instance: the example poll after the votes of "alice" and "bob"; the
durable record ends with status 'completed' and `totalVotes` 2. -/
theorem C8_endPoll_witness :
    mapGet (submitAll exampleState "p1"
        [Submission.mk 2 "alice" "4" true, Submission.mk 3 "bob" "5" true]).activePolls "p1" =
      some { exampleSession with
             votes := [("alice", "4"), ("bob", "5")], totalVotes := 2,
             options := [PollOption.mk "4" true 1, PollOption.mk "5" false 1] } ∧
    mapGet (endPoll (submitAll exampleState "p1"
        [Submission.mk 2 "alice" "4" true, Submission.mk 3 "bob" "5" true]) "p1" true).1.db "p1" =
      some { exampleSession with
             status := PollStatus.completed,
             votes := [("alice", "4"), ("bob", "5")], totalVotes := 2,
             options := [PollOption.mk "4" true 1, PollOption.mk "5" false 1] } ∧
    mapHas (endPoll (submitAll exampleState "p1"
        [Submission.mk 2 "alice" "4" true, Submission.mk 3 "bob" "5" true]) "p1" true).1.activePolls
      "p1" = false :=
  have h := C8_endPoll_flushes_and_evicts
    (submitAll exampleState "p1"
      [Submission.mk 2 "alice" "4" true, Submission.mk 3 "bob" "5" true]) "p1"
    { exampleSession with
      votes := [("alice", "4"), ("bob", "5")], totalVotes := 2,
      options := [PollOption.mk "4" true 1, PollOption.mk "5" false 1] } (by decide)
  ⟨by decide, h.2.1.trans (by decide), h.2.2.2.2⟩

/-- C8 as stated fails: when the store write of `endPoll` is rejected, nothing
is written and the identifier still resolves in the registry. -/
theorem C8_counterexample_failed_write :
    endPoll exampleState "p1" false = (exampleState, []) ∧
    mapHas exampleState.activePolls "p1" = true := by
  decide

end IntervuePoll

namespace IntervuePoll

/-- A participant with a recorded non-empty vote is turned away, whatever the
option named, and nothing changes. -/
theorem submitAnswer_rejects_recorded_voter (s : ServerState) (sid : Nat)
    (username option pollId recorded : String) (storeOk : Bool) (poll : Poll)
    (hlive : mapGet s.activePolls pollId = some poll)
    (hvote : objLookup poll.votes username = some recorded) (hne : recorded ≠ "") :
    submitAnswer s sid username option pollId storeOk =
      (s, [Output.emit sid (ServerEvent.error "You have already voted")]) := by
  apply submitAnswer_duplicate s sid username option pollId storeOk poll hlive
  simp [propTruthy, hvote, hne]

/-! ## Claims C6, C7, C9: an accepted vote -/

/-- C6: for every active poll, every participant who is not a key of its
votes map and every option text that matches at least one option, a
`submitAnswer` that is accepted (not answered with 'You have already voted')
sets `votes[participant]` to that text, increases `totalVotes` by exactly 1,
increases by exactly 1 the count of the first option, in declared order, whose
text equals it, and leaves every other option and every other participant's
entry unchanged. -/
theorem C6_accepted_vote_effect (s : ServerState) (sid : Nat)
    (username option pollId : String) (storeOk : Bool) (poll : Poll)
    (hlive : mapGet s.activePolls pollId = some poll)
    (_hnew : username ∉ objKeys poll.votes)
    (hlisted : option ∈ poll.options.map (fun o => o.text))
    (haccepted : Output.emit sid (ServerEvent.error "You have already voted") ∉
      (submitAnswer s sid username option pollId storeOk).2) :
    ∃ (live : Poll) (i : Nat) (opt : PollOption),
      mapGet (submitAnswer s sid username option pollId storeOk).1.activePolls pollId
        = some live ∧
      objLookup live.votes username = some option ∧
      live.totalVotes = poll.totalVotes + 1 ∧
      poll.options[i]? = some opt ∧ opt.text = option ∧
      (∀ j, j < i → ∀ o : PollOption, poll.options[j]? = some o → o.text ≠ option) ∧
      live.options[i]? = some { opt with votes := opt.votes + 1 } ∧
      (∀ j, j ≠ i → live.options[j]? = poll.options[j]?) ∧
      live.options.length = poll.options.length ∧
      (∀ other, other ≠ username → objLookup live.votes other = objLookup poll.votes other) := by
  have ht : propTruthy poll.votes username = false := by
    cases h : propTruthy poll.votes username with
    | false => rfl
    | true =>
        rw [submitAnswer_duplicate s sid username option pollId storeOk poll hlive h] at haccepted
        exact absurd (List.mem_singleton.mpr rfl) haccepted
  obtain ⟨x, hx, hxt⟩ := List.mem_map.mp hlisted
  obtain ⟨i, hi⟩ := findIndex_isSome_of_mem (fun opt => decide (opt.text = option))
    poll.options x hx (by simpa using hxt)
  obtain ⟨⟨opt, hopt, hp⟩, hfirst⟩ := findIndex_spec _ _ i hi
  have hoptions := recordVote_options_of_some poll username option i hi
  have hvotes : (recordVote poll username option).votes = objUpsert poll.votes username option := by
    rw [recordVote_votes, objAssign_of_not_truthy _ _ _ ht]
  refine ⟨recordVote poll username option, i, opt, ?_, ?_, ?_, hopt, ?_, ?_, ?_, ?_, ?_, ?_⟩
  · rw [submitAnswer_activePolls s sid username option pollId storeOk poll hlive ht,
      mapGet_mapSet_self]
  · rw [hvotes, objLookup_objUpsert_self]
  · exact recordVote_totalVotes poll username option
  · simpa using hp
  · intro j hj o ho
    simpa using hfirst j hj o ho
  · rw [hoptions, getElem?_modifyAt_self, hopt]
    rfl
  · intro j hj
    rw [hoptions, getElem?_modifyAt_ne _ _ _ _ hj]
  · rw [hoptions, length_modifyAt]
  · intro other hne
    rw [hvotes, objLookup_objUpsert_ne _ _ _ _ hne]

/-- C6, instance: "alice" votes "4" on the fresh example poll. -/
theorem C6_accepted_vote_witness :
    mapGet exampleState.activePolls "p1" = some exampleSession ∧
    "alice" ∉ objKeys exampleSession.votes ∧
    "4" ∈ exampleSession.options.map (fun o => o.text) ∧
    Output.emit 2 (ServerEvent.error "You have already voted") ∉
      (submitAnswer exampleState 2 "alice" "4" "p1" true).2 ∧
    ∃ (live : Poll) (i : Nat) (opt : PollOption),
      mapGet (submitAnswer exampleState 2 "alice" "4" "p1" true).1.activePolls "p1"
        = some live ∧
      objLookup live.votes "alice" = some "4" ∧
      live.totalVotes = exampleSession.totalVotes + 1 ∧
      exampleSession.options[i]? = some opt ∧ opt.text = "4" ∧
      (∀ j, j < i → ∀ o : PollOption, exampleSession.options[j]? = some o → o.text ≠ "4") ∧
      live.options[i]? = some { opt with votes := opt.votes + 1 } ∧
      (∀ j, j ≠ i → live.options[j]? = exampleSession.options[j]?) ∧
      live.options.length = exampleSession.options.length ∧
      (∀ other, other ≠ "alice" →
        objLookup live.votes other = objLookup exampleSession.votes other) :=
  ⟨by decide, by decide, by decide, by decide,
   C6_accepted_vote_effect exampleState 2 "alice" "4" "p1" true exampleSession
     (by decide) (by decide) (by decide) (by decide)⟩

/-- C7 (as amended): for every `submitAnswer` that passes the guards and whose
store write resolves, the `pollResults` payload broadcast to all clients is
built from the live session after the vote: it maps every text other than
`__proto__` to the current count of the last option, in declared order, with
that text, and has no key `__proto__`.  So when the option texts are pairwise
distinct, every option's text (other than `__proto__`) is mapped to that
option's current count; on options "4", "5" with no prior votes, a vote for
"4" broadcasts the payload with "4" at 1 and "5" at 0. -/
theorem C7_pollResults_snapshot (s : ServerState) (sid : Nat)
    (username option pollId : String) (poll : Poll)
    (hlive : mapGet s.activePolls pollId = some poll)
    (hpass : propTruthy poll.votes username = false) :
    (∃ live,
      mapGet (submitAnswer s sid username option pollId true).1.activePolls pollId
        = some live ∧
      (submitAnswer s sid username option pollId true).2 =
        [Output.dbUpdate pollId
           { status := none, votes := live.votes, totalVotes := live.totalVotes,
             options := live.options },
         Output.broadcast (ServerEvent.pollResults (voteCounts live.options))] ∧
      (∀ text, text ≠ "__proto__" →
        objLookup (voteCounts live.options) text =
          (lastWithText live.options text).map (fun o => o.votes)) ∧
      objLookup (voteCounts live.options) "__proto__" = none ∧
      ((live.options.map (fun o => o.text)).Nodup →
        ∀ opt ∈ live.options, opt.text ≠ "__proto__" →
          objLookup (voteCounts live.options) opt.text = some opt.votes)) ∧
    (submitAnswer exampleState 2 "alice" "4" "p1" true).2 =
      [Output.dbUpdate "p1"
         { status := none, votes := [("alice", "4")], totalVotes := 1,
           options := [PollOption.mk "4" true 1, PollOption.mk "5" false 0] },
       Output.broadcast (ServerEvent.pollResults [("4", 1), ("5", 0)])] := by
  refine ⟨⟨recordVote poll username option, ?_, ?_, ?_, ?_, ?_⟩, by decide⟩
  · rw [submitAnswer_activePolls s sid username option pollId true poll hlive hpass,
      mapGet_mapSet_self]
  · rw [submitAnswer_stored s sid username option pollId poll hlive hpass]
  · intro text ht
    exact objLookup_voteCounts _ text ht
  · exact objLookup_voteCounts_proto _
  · intro hnodup opt hmem hne
    rw [objLookup_voteCounts _ _ hne, lastWithText_of_nodup _ opt hnodup hmem]
    rfl

/-- C7, instance: "alice" votes "4" on the fresh example poll. -/
theorem C7_pollResults_witness :
    mapGet exampleState.activePolls "p1" = some exampleSession ∧
    propTruthy exampleSession.votes "alice" = false ∧
    (∃ live,
      mapGet (submitAnswer exampleState 2 "alice" "4" "p1" true).1.activePolls "p1"
        = some live ∧
      (submitAnswer exampleState 2 "alice" "4" "p1" true).2 =
        [Output.dbUpdate "p1"
           { status := none, votes := live.votes, totalVotes := live.totalVotes,
             options := live.options },
         Output.broadcast (ServerEvent.pollResults (voteCounts live.options))] ∧
      (∀ text, text ≠ "__proto__" →
        objLookup (voteCounts live.options) text =
          (lastWithText live.options text).map (fun o => o.votes)) ∧
      objLookup (voteCounts live.options) "__proto__" = none ∧
      ((live.options.map (fun o => o.text)).Nodup →
        ∀ opt ∈ live.options, opt.text ≠ "__proto__" →
          objLookup (voteCounts live.options) opt.text = some opt.votes)) ∧
    (submitAnswer exampleState 2 "alice" "4" "p1" true).2 =
      [Output.dbUpdate "p1"
         { status := none, votes := [("alice", "4")], totalVotes := 1,
           options := [PollOption.mk "4" true 1, PollOption.mk "5" false 0] },
       Output.broadcast (ServerEvent.pollResults [("4", 1), ("5", 0)])] :=
  ⟨by decide, by decide,
   C7_pollResults_snapshot exampleState 2 "alice" "4" "p1" exampleSession
     (by decide) (by decide)⟩

/-- C7 as stated fails: with two options of the same text "4", a vote for "4"
raises the count of the first one to 1, and the payload broadcast maps "4" to
0, the count of the second. -/
theorem C7_counterexample_duplicate_texts :
    (createPoll ServerState.init 1
        { examplePollData with
          options := [OptionInput.mk "4" (some true) none, OptionInput.mk "4" (some false) none] }
        "p2" true).1.activePolls =
      [("p2", { exampleSession with
                options := [PollOption.mk "4" true 0, PollOption.mk "4" false 0] })] ∧
    (submitAnswer
        (createPoll ServerState.init 1
          { examplePollData with
            options := [OptionInput.mk "4" (some true) none, OptionInput.mk "4" (some false) none] }
          "p2" true).1 2 "alice" "4" "p2" true).2 =
      [Output.dbUpdate "p2"
         { status := none, votes := [("alice", "4")], totalVotes := 1,
           options := [PollOption.mk "4" true 1, PollOption.mk "4" false 0] },
       Output.broadcast (ServerEvent.pollResults [("4", 0)])] := by
  decide

/-- C9 (as amended): for every otherwise acceptable `submitAnswer` whose store
write is rejected, the in-memory vote and tallies stay recorded, exactly as
when the write resolves, and the store is untouched; but no `pollResults` is
broadcast: the only thing sent is the error 'Failed to submit answer' to the
originating client. -/
theorem C9_failed_store_write (s : ServerState) (sid : Nat)
    (username option pollId : String) (poll : Poll)
    (hlive : mapGet s.activePolls pollId = some poll)
    (hpass : propTruthy poll.votes username = false) :
    (submitAnswer s sid username option pollId false).2 =
      [Output.emit sid (ServerEvent.error "Failed to submit answer")] ∧
    (submitAnswer s sid username option pollId false).1.activePolls =
      (submitAnswer s sid username option pollId true).1.activePolls ∧
    mapGet (submitAnswer s sid username option pollId false).1.activePolls pollId =
      some (recordVote poll username option) ∧
    (submitAnswer s sid username option pollId false).1.db = s.db := by
  rw [submitAnswer_store_failed s sid username option pollId poll hlive hpass,
    submitAnswer_stored s sid username option pollId poll hlive hpass]
  exact ⟨rfl, rfl, mapGet_mapSet_self _ _ _, rfl⟩

/-- C9, instance: "alice" votes "4" on the example poll while the store is down. -/
theorem C9_failed_store_write_witness :
    mapGet exampleState.activePolls "p1" = some exampleSession ∧
    propTruthy exampleSession.votes "alice" = false ∧
    (submitAnswer exampleState 2 "alice" "4" "p1" false).2 =
      [Output.emit 2 (ServerEvent.error "Failed to submit answer")] ∧
    (submitAnswer exampleState 2 "alice" "4" "p1" false).1.activePolls =
      (submitAnswer exampleState 2 "alice" "4" "p1" true).1.activePolls ∧
    mapGet (submitAnswer exampleState 2 "alice" "4" "p1" false).1.activePolls "p1" =
      some (recordVote exampleSession "alice" "4") ∧
    (submitAnswer exampleState 2 "alice" "4" "p1" false).1.db = exampleState.db :=
  ⟨by decide, by decide,
   C9_failed_store_write exampleState 2 "alice" "4" "p1" exampleSession (by decide) (by decide)⟩

/-- C9 as stated fails: "alice" votes "4" on the example poll and the store
write is rejected; the vote is in memory, yet no `pollResults` goes out. -/
theorem C9_counterexample_no_broadcast :
    submitAnswer exampleState 2 "alice" "4" "p1" false =
      ({ exampleState with
         activePolls := [("p1", { exampleSession with
           votes := [("alice", "4")], totalVotes := 1,
           options := [PollOption.mk "4" true 1, PollOption.mk "5" false 0] })] },
       [Output.emit 2 (ServerEvent.error "Failed to submit answer")]) := by
  decide

/-! ## Claim C10: a failed creation -/

/-- C10: for every `createPoll` whose `save()` fails, be it that the store
rejects the call or that the document does not pass the schema, the state
(registry included) is unchanged and the only thing sent is an error event to
the originating client: no `pollCreated` broadcast, no timer. -/
theorem C10_failed_save_leaves_no_trace (s : ServerState) (sid : Nat) (pollData : PollData)
    (newId : String) (storeOk : Bool)
    (hfail : storeOk = false ∨ newPoll pollData = none) :
    createPoll s sid pollData newId storeOk =
      (s, [Output.emit sid (ServerEvent.error "Failed to create poll")]) := by
  apply createPoll_failed
  unfold save
  cases hn : newPoll pollData with
  | none => rfl
  | some doc =>
      rcases hfail with h | h
      · simp [h]
      · rw [h] at hn
        cases hn

/-- C10, instance: the example request with the store down, and a request
with a question of 101 characters. -/
theorem C10_failed_save_witness :
    ((false = false ∨ newPoll examplePollData = none) ∧
      createPoll ServerState.init 1 examplePollData "p1" false =
        (ServerState.init, [Output.emit 1 (ServerEvent.error "Failed to create poll")])) ∧
    ((true = false ∨
        newPoll { examplePollData with question := String.mk (List.replicate 101 'a') } = none) ∧
      createPoll exampleState 1
          { examplePollData with question := String.mk (List.replicate 101 'a') } "p2" true =
        (exampleState, [Output.emit 1 (ServerEvent.error "Failed to create poll")])) :=
  ⟨⟨Or.inl rfl,
    C10_failed_save_leaves_no_trace ServerState.init 1 examplePollData "p1" false (Or.inl rfl)⟩,
   ⟨Or.inr (by decide),
    C10_failed_save_leaves_no_trace exampleState 1
      { examplePollData with question := String.mk (List.replicate 101 'a') } "p2" true
      (Or.inr (by decide))⟩⟩

end IntervuePoll

namespace IntervuePoll

/-! ## Claims C11 and C12: what `createPoll` registers -/

theorem save_isSome_of_not_failed (s : ServerState) (sid : Nat) (pollData : PollData)
    (newId : String) (storeOk : Bool)
    (h : (createPoll s sid pollData newId storeOk).2 ≠
      [Output.emit sid (ServerEvent.error "Failed to create poll")]) :
    ∃ poll, save s.db newId pollData storeOk = some poll := by
  cases hs : save s.db newId pollData storeOk with
  | none =>
      rw [createPoll_failed s sid pollData newId storeOk hs] at h
      exact absurd rfl h
  | some poll => exact ⟨poll, rfl⟩

theorem mapGet_append_new {α : Type} (m : List (String × α)) (k : String) (v : α)
    (h : k ∉ objKeys m) : mapGet (m ++ [(k, v)]) k = some v := by
  induction m with
  | nil => simp [mapGet, objLookup]
  | cons kv rest ih =>
      simp only [objKeys, List.map_cons, List.mem_cons, not_or] at h
      have hne : ¬ kv.1 = k := fun e => h.1 e.symm
      rw [List.cons_append, mapGet_cons, if_neg hne]
      exact ih h.2

/-- C11 (as amended): for every `createPoll` request, a live session is
registered only if the question has at most 100 characters (UTF-16 code units)
and `parseInt` of the timer value, the integer its string form starts with,
lies in [30, 90]; a request with a longer question, or whose timer does not
parse to an integer in [30, 90], is rejected and leaves the state as it was. -/
theorem C11_creation_bounds (s : ServerState) (sid : Nat) (pollData : PollData)
    (newId : String) (storeOk : Bool) :
    ((createPoll s sid pollData newId storeOk).2 ≠
        [Output.emit sid (ServerEvent.error "Failed to create poll")] →
      jsLength pollData.question ≤ 100 ∧
      ∃ t, parseInt pollData.timer = some t ∧ 30 ≤ t ∧ t ≤ 90) ∧
    ((100 < jsLength pollData.question ∨
        ∀ t, parseInt pollData.timer = some t → t < 30 ∨ 90 < t) →
      createPoll s sid pollData newId storeOk =
        (s, [Output.emit sid (ServerEvent.error "Failed to create poll")])) := by
  have key : ∀ poll, save s.db newId pollData storeOk = some poll →
      jsLength pollData.question ≤ 100 ∧
      ∃ t, parseInt pollData.timer = some t ∧ 30 ≤ t ∧ t ≤ 90 := by
    intro poll hs
    obtain ⟨hn, _, _⟩ := save_spec _ _ _ _ _ hs
    obtain ⟨_, _, _, _, _, _, hp, hlo, hhi, hlen⟩ := newPoll_spec pollData poll hn
    exact ⟨hlen, poll.timer, hp, hlo, hhi⟩
  constructor
  · intro h
    obtain ⟨poll, hs⟩ := save_isSome_of_not_failed s sid pollData newId storeOk h
    exact key poll hs
  · intro h
    apply createPoll_failed
    cases hs : save s.db newId pollData storeOk with
    | none => rfl
    | some poll =>
        obtain ⟨hlen, t, hp, hlo, hhi⟩ := key poll hs
        rcases h with h | h
        · omega
        · rcases h t hp with h2 | h2 <;> omega

/-- C11, instance: the example request is registered with timer 30; the same
request with timer "91" and the one with a question of 101 characters are
rejected. -/
theorem C11_creation_bounds_witness :
    ((createPoll ServerState.init 1 examplePollData "p1" true).2 ≠
        [Output.emit 1 (ServerEvent.error "Failed to create poll")] ∧
      jsLength examplePollData.question ≤ 100 ∧
      ∃ t, parseInt examplePollData.timer = some t ∧ 30 ≤ t ∧ t ≤ 90) ∧
    ((∀ t, parseInt "91" = some t → t < 30 ∨ 90 < t) ∧
      createPoll ServerState.init 1 { examplePollData with timer := "91" } "p1" true =
        (ServerState.init, [Output.emit 1 (ServerEvent.error "Failed to create poll")])) ∧
    (100 < jsLength (String.mk (List.replicate 101 'a')) ∧
      createPoll ServerState.init 1
          { examplePollData with question := String.mk (List.replicate 101 'a') } "p1" true =
        (ServerState.init, [Output.emit 1 (ServerEvent.error "Failed to create poll")])) :=
  ⟨⟨by decide,
    (C11_creation_bounds ServerState.init 1 examplePollData "p1" true).1 (by decide)⟩,
   ⟨by
      intro t ht
      have h91 : parseInt "91" = some 91 := by decide
      rw [h91] at ht
      cases ht
      exact Or.inr (by decide),
    (C11_creation_bounds ServerState.init 1 { examplePollData with timer := "91" } "p1"
      true).2 (Or.inr (by
        intro t ht
        have h91 : parseInt "91" = some 91 := by decide
        have ht2 : parseInt "91" = some t := ht
        rw [h91] at ht2
        cases ht2
        exact Or.inr (by decide)))⟩,
   ⟨by decide,
    (C11_creation_bounds ServerState.init 1
      { examplePollData with question := String.mk (List.replicate 101 'a') } "p1"
      true).2 (Or.inl (by decide))⟩⟩

/-- C11 as stated fails: a request whose timer is supplied as 90.5, a value
outside [30, 90], is not rejected; its session is registered with timer 90 and
closes after 90000 ms. -/
theorem C11_counterexample_fractional_timer :
    suppliedInRange "90.5" = false ∧
    createPoll ServerState.init 1 { examplePollData with timer := "90.5" } "p1" true =
      ({ ServerState.init with
         activePolls := [("p1", { exampleSession with timer := 90 })]
         db := [("p1", { exampleSession with timer := 90 })] },
       [Output.dbInsert "p1" { exampleSession with timer := 90 },
        Output.broadcast (ServerEvent.pollCreated "p1" "2+2=?" exampleSession.options 90),
        Output.setTimeout "p1" 90000]) := by
  decide

/-- C12: for every successful `createPoll`, whatever `votes` the options of
the request carry, the registered live session has an empty votes map,
`totalVotes` 0, every option's count 0, and the option texts and correctness
flags of the request in the same order; the document inserted in the
collection is equal to it and has status 'active'. -/
theorem C12_created_session (s : ServerState) (sid : Nat) (pollData : PollData)
    (newId : String) (storeOk : Bool)
    (hok : (createPoll s sid pollData newId storeOk).2 ≠
      [Output.emit sid (ServerEvent.error "Failed to create poll")]) :
    ∃ live : Poll,
      mapGet (createPoll s sid pollData newId storeOk).1.activePolls newId = some live ∧
      live.votes = [] ∧ live.totalVotes = 0 ∧
      (∀ o ∈ live.options, o.votes = 0) ∧
      live.options.map (fun o => (o.text, some o.correct)) =
        pollData.options.map (fun o => (o.text, o.correct)) ∧
      mapGet (createPoll s sid pollData newId storeOk).1.db newId = some live ∧
      live.status = PollStatus.active ∧
      Output.dbInsert newId live ∈ (createPoll s sid pollData newId storeOk).2 := by
  obtain ⟨poll, hs⟩ := save_isSome_of_not_failed s sid pollData newId storeOk hok
  obtain ⟨hn, _, hfresh⟩ := save_spec _ _ _ _ _ hs
  obtain ⟨hopts, hvotes, htotal, hstatus, _, hvalid, _⟩ := newPoll_spec pollData poll hn
  have hsame : ({ poll with votes := [], totalVotes := 0 } : Poll) = poll := by
    cases poll
    simp only at hvotes htotal
    subst hvotes; subst htotal
    rfl
  rw [createPoll_saved s sid pollData newId storeOk poll hs]
  refine ⟨poll, ?_, hvotes, htotal, ?_, ?_, ?_, hstatus, ?_⟩
  · show mapGet (mapSet s.activePolls newId _) newId = some poll
    rw [mapGet_mapSet_self, hsame]
  · intro o ho
    rw [hopts] at ho
    obtain ⟨i, _, rfl⟩ := List.mem_map.mp ho
    rfl
  · rw [hopts]
    simp only [newOptions, List.map_map]
    apply List.map_congr_left
    intro o ho
    have hv := List.all_eq_true.mp hvalid o ho
    simp only [optionValid, Bool.and_eq_true] at hv
    obtain ⟨c, hc⟩ := Option.isSome_iff_exists.mp hv.2
    simp [hc]
  · show mapGet (s.db ++ [(newId, poll)]) newId = some poll
    exact mapGet_append_new _ _ _ hfresh
  · simp

/-- C12, instance: the example request with `votes` 7 and -3 on its options. -/
theorem C12_created_session_witness :
    (createPoll ServerState.init 1
        { examplePollData with
          options := [OptionInput.mk "4" (some true) (some 7),
                      OptionInput.mk "5" (some false) (some (-3))] } "p1" true).2 ≠
      [Output.emit 1 (ServerEvent.error "Failed to create poll")] ∧
    ∃ live : Poll,
      mapGet (createPoll ServerState.init 1
        { examplePollData with
          options := [OptionInput.mk "4" (some true) (some 7),
                      OptionInput.mk "5" (some false) (some (-3))] } "p1"
        true).1.activePolls "p1" = some live ∧
      live.votes = [] ∧ live.totalVotes = 0 ∧
      (∀ o ∈ live.options, o.votes = 0) ∧
      live.options.map (fun o => (o.text, some o.correct)) =
        [("4", some true), ("5", some false)] ∧
      mapGet (createPoll ServerState.init 1
        { examplePollData with
          options := [OptionInput.mk "4" (some true) (some 7),
                      OptionInput.mk "5" (some false) (some (-3))] } "p1"
        true).1.db "p1" = some live ∧
      live.status = PollStatus.active ∧
      Output.dbInsert "p1" live ∈ (createPoll ServerState.init 1
        { examplePollData with
          options := [OptionInput.mk "4" (some true) (some 7),
                      OptionInput.mk "5" (some false) (some (-3))] } "p1" true).2 :=
  ⟨by decide,
   C12_created_session ServerState.init 1
     { examplePollData with
       options := [OptionInput.mk "4" (some true) (some 7),
                   OptionInput.mk "5" (some false) (some (-3))] } "p1" true (by decide)⟩

end IntervuePoll

namespace IntervuePoll

/-! ## Claims C14, C15, C17, C18: moderation, chat and roster -/

/-- C14: for every state and every `kickOut` issued by a connection whose
bound username is absent or does not start with 'teacher', the event has no
effect: the state (sockets, participant set, registry, chat list, store) is
unchanged and nothing is sent, be it `kickedOut`, `participantsUpdate` or a
disconnection. -/
theorem C14_kickOut_needs_teacher (s : ServerState) (sid : Nat) (username : String)
    (hnot : ∀ me, (findSocket s sid).bind (fun k => k.username) = some me →
      startsWith me "teacher" = false) :
    kickOut s sid username = (s, []) ∧ step s (Event.kickOut sid username) = (s, []) := by
  have h1 : kickOut s sid username = (s, []) := by
    unfold kickOut
    cases hb : (findSocket s sid).bind (fun k => k.username) with
    | none => rfl
    | some me =>
        have hf := hnot me hb
        simp [hf]
  refine ⟨h1, ?_⟩
  simp only [step]
  cases findSocket s sid with
  | none => rfl
  | some k => exact h1

/-- C14, instance: "dave", who joined chat, tries to kick "carol"; so does a
socket that never joined. -/
theorem C14_kickOut_witness :
    ((∀ me, (findSocket (run ServerState.init
          [Event.connection 1, Event.connection 2, Event.connection 3,
           Event.joinChat 1 "carol", Event.joinChat 2 "dave"]) 2).bind
          (fun k => k.username) = some me → startsWith me "teacher" = false) ∧
      kickOut (run ServerState.init
          [Event.connection 1, Event.connection 2, Event.connection 3,
           Event.joinChat 1 "carol", Event.joinChat 2 "dave"]) 2 "carol" =
        (run ServerState.init
          [Event.connection 1, Event.connection 2, Event.connection 3,
           Event.joinChat 1 "carol", Event.joinChat 2 "dave"], [])) ∧
    kickOut (run ServerState.init
        [Event.connection 1, Event.connection 2, Event.connection 3,
         Event.joinChat 1 "carol", Event.joinChat 2 "dave"]) 3 "carol" =
      (run ServerState.init
        [Event.connection 1, Event.connection 2, Event.connection 3,
         Event.joinChat 1 "carol", Event.joinChat 2 "dave"], []) :=
  have hdave : ∀ me, (findSocket (run ServerState.init
      [Event.connection 1, Event.connection 2, Event.connection 3,
       Event.joinChat 1 "carol", Event.joinChat 2 "dave"]) 2).bind
      (fun k => k.username) = some me → startsWith me "teacher" = false := by
    intro me hme
    have hb : (findSocket (run ServerState.init
        [Event.connection 1, Event.connection 2, Event.connection 3,
         Event.joinChat 1 "carol", Event.joinChat 2 "dave"]) 2).bind
        (fun k => k.username) = some "dave" := by decide
    rw [hb] at hme
    cases hme
    decide
  have hnone : ∀ me, (findSocket (run ServerState.init
      [Event.connection 1, Event.connection 2, Event.connection 3,
       Event.joinChat 1 "carol", Event.joinChat 2 "dave"]) 3).bind
      (fun k => k.username) = some me → startsWith me "teacher" = false := by
    intro me hme
    have hb : (findSocket (run ServerState.init
        [Event.connection 1, Event.connection 2, Event.connection 3,
         Event.joinChat 1 "carol", Event.joinChat 2 "dave"]) 3).bind
        (fun k => k.username) = none := by decide
    rw [hb] at hme
    cases hme
  ⟨⟨hdave, (C14_kickOut_needs_teacher _ 2 "carol" hdave).1⟩,
   (C14_kickOut_needs_teacher _ 3 "carol" hnone).1⟩

theorem sliceLast_length {α : Type} (n : Nat) (arr : List α) :
    (sliceLast n arr).length = min arr.length n := by
  unfold sliceLast
  rw [List.length_drop]
  omega

theorem sliceLast_of_le {α : Type} (n : Nat) (arr : List α) (h : arr.length ≤ n) :
    sliceLast n arr = arr := by
  unfold sliceLast
  rw [Nat.sub_eq_zero_of_le h]
  rfl

theorem sliceLast_suffix {α : Type} (n : Nat) (arr : List α) :
    arr.take (arr.length - n) ++ sliceLast n arr = arr :=
  List.take_append_drop _ _

/-- Pushing one message on at most 100 stored ones and shifting when the list
got longer than 100 keeps the last 100. -/
theorem chatMessage_stored (s : ServerState) (m : ChatInput)
    (h : s.chatMessages.length ≤ 100) :
    (chatMessage s m.message m.timestamp m.id).1.chatMessages =
      sliceLast 100 (s.chatMessages ++ [m.stored]) := by
  show (if (s.chatMessages ++ [m.stored]).length > 100
      then (s.chatMessages ++ [m.stored]).drop 1 else s.chatMessages ++ [m.stored]) = _
  unfold sliceLast
  by_cases hlen : (s.chatMessages ++ [m.stored]).length > 100
  · rw [if_pos hlen]
    have : (s.chatMessages ++ [m.stored]).length - 100 = 1 := by
      simp only [List.length_append, List.length_singleton] at hlen ⊢
      omega
    rw [this]
  · rw [if_neg hlen]
    have : (s.chatMessages ++ [m.stored]).length - 100 = 0 := by omega
    rw [this]
    rfl

theorem sliceLast_append_left {α : Type} (n : Nat) (pre l : List α) (h : n ≤ l.length) :
    sliceLast n (pre ++ l) = sliceLast n l := by
  unfold sliceLast
  have : (pre ++ l).length - n = pre.length + (l.length - n) := by
    rw [List.length_append]; omega
  rw [this, List.drop_append]

theorem sliceLast_append_sliceLast {α : Type} (n : Nat) (a b : List α) :
    sliceLast n (sliceLast n a ++ b) = sliceLast n (a ++ b) := by
  by_cases ha : a.length ≤ n
  · rw [sliceLast_of_le n a ha]
  · have hlen : n ≤ (sliceLast n a ++ b).length := by
      rw [List.length_append, sliceLast_length]; omega
    have hsplit : a ++ b = a.take (a.length - n) ++ (sliceLast n a ++ b) := by
      rw [← List.append_assoc, sliceLast_suffix]
    rw [hsplit, sliceLast_append_left n _ _ hlen]

theorem chatAll_stored (ms : List ChatInput) (s : ServerState)
    (h : s.chatMessages.length ≤ 100) :
    (chatAll s ms).chatMessages = sliceLast 100 (s.chatMessages ++ ms.map ChatInput.stored) := by
  induction ms generalizing s with
  | nil =>
      simp only [chatAll, List.map_nil, List.append_nil]
      exact (sliceLast_of_le 100 _ h).symm
  | cons m rest ih =>
      have hstep := chatMessage_stored s m h
      have hlen : (chatMessage s m.message m.timestamp m.id).1.chatMessages.length ≤ 100 := by
        rw [hstep, sliceLast_length]
        exact Nat.min_le_right _ _
      rw [chatAll, ih _ hlen, hstep, sliceLast_append_sliceLast, List.map_cons,
        List.append_assoc]
      rfl

end IntervuePoll

namespace IntervuePoll

/-- C15: for every sequence of `chatMessage` events after a state with an
empty chat list, the stored list never holds more than 100 messages and equals
the most recent min(n, 100) of the n messages received, in arrival order.  A
prefix of a sequence is a sequence, so this holds after each event. -/
theorem C15_chat_keeps_last_100 (s : ServerState) (hempty : s.chatMessages = [])
    (ms : List ChatInput) :
    (chatAll s ms).chatMessages.length ≤ 100 ∧
    (chatAll s ms).chatMessages.length = min ms.length 100 ∧
    (chatAll s ms).chatMessages = (ms.map ChatInput.stored).drop (ms.length - 100) := by
  have h := chatAll_stored ms s (by rw [hempty]; exact Nat.zero_le _)
  rw [hempty, List.nil_append] at h
  have hlen : (chatAll s ms).chatMessages.length = min ms.length 100 := by
    rw [h, sliceLast_length, List.length_map]
  refine ⟨?_, hlen, ?_⟩
  · rw [hlen]; exact Nat.min_le_right _ _
  · rw [h]
    unfold sliceLast
    rw [List.length_map]

/-- C15, instance: 102 messages with identifiers 0 to 101 arrive after
start-up; the 100 with identifiers 2 to 101 are stored. -/
theorem C15_chat_witness :
    ServerState.init.chatMessages = [] ∧
    (chatAll ServerState.init
        ((List.range 102).map (fun i => ChatInput.mk [("text", "hi")] i i))).chatMessages.length
      ≤ 100 ∧
    (chatAll ServerState.init
        ((List.range 102).map (fun i => ChatInput.mk [("text", "hi")] i i))).chatMessages.length
      = min ((List.range 102).map (fun i => ChatInput.mk [("text", "hi")] i i)).length 100 ∧
    (chatAll ServerState.init
        ((List.range 102).map (fun i => ChatInput.mk [("text", "hi")] i i))).chatMessages
      = (((List.range 102).map (fun i => ChatInput.mk [("text", "hi")] i i)).map
          ChatInput.stored).drop
        (((List.range 102).map (fun i => ChatInput.mk [("text", "hi")] i i)).length - 100) :=
  ⟨rfl, C15_chat_keeps_last_100 ServerState.init rfl
    ((List.range 102).map (fun i => ChatInput.mk [("text", "hi")] i i))⟩

/-- C18: for every `joinChat`, the `chatHistory` payload sent to the joining
client is the last min(n, 50) of the n stored chat messages, in arrival order:
what is left of the stored list after dropping its first n - 50 entries; it
never has more than 50 entries. -/
theorem C18_chat_history_last_50 (s : ServerState) (sid : Nat) (username : String) :
    ∃ history,
      (joinChat s sid username).2 =
        [Output.broadcast
           (ServerEvent.participantsUpdate (joinChat s sid username).1.participants),
         Output.emit sid (ServerEvent.chatHistory history)] ∧
      history = s.chatMessages.drop (s.chatMessages.length - 50) ∧
      s.chatMessages.take (s.chatMessages.length - 50) ++ history = s.chatMessages ∧
      history.length = min s.chatMessages.length 50 ∧
      history.length ≤ 50 := by
  refine ⟨sliceLast 50 s.chatMessages, rfl, rfl, sliceLast_suffix 50 _, sliceLast_length 50 _, ?_⟩
  rw [sliceLast_length]
  exact Nat.min_le_right _ _

/-! ## Claims C16, C19, C20: votes and sessions -/

/-- C19, the code at the failing input: on the fresh example poll, whose
votes map has no key at all, a `submitAnswer` by the participant named
"constructor" for the listed option "4" is turned away with 'You have already
voted', and nothing is recorded. -/
theorem C19_inherited_name_rejected :
    objKeys exampleSession.votes = [] ∧
    mapGet exampleState.activePolls "p1" = some exampleSession ∧
    "4" ∈ exampleSession.options.map (fun o => o.text) ∧
    submitAnswer exampleState 2 "constructor" "4" "p1" true =
      (exampleState, [Output.emit 2 (ServerEvent.error "You have already voted")]) := by
  decide

/-- C16, the code at the failing input: on the example poll "alice" has the
recorded entry `votes["alice"] = ""`; the session stays in the registry, and
her later `submitAnswer` naming "4" replaces the entry. -/
theorem C16_empty_vote_replaced :
    (mapGet (submitAnswer exampleState 2 "alice" "" "p1" true).1.activePolls "p1").map
        (fun p => objLookup p.votes "alice") = some (some "") ∧
    (mapGet (step (step (submitAnswer exampleState 2 "alice" "" "p1" true).1
        (Event.connection 2)).1 (Event.submitAnswer 2 "alice" "4" "p1" true)).1.activePolls
        "p1").map (fun p => objLookup p.votes "alice") = some (some "4") := by
  decide

theorem endPoll_other (s : ServerState) (pollId other : String) (storeOk : Bool)
    (hne : other ≠ pollId) :
    mapGet (endPoll s pollId storeOk).1.activePolls other = mapGet s.activePolls other := by
  cases hlive : mapGet s.activePolls pollId with
  | none => rw [endPoll_not_found s pollId storeOk hlive]
  | some poll =>
      cases storeOk
      · rw [endPoll_store_failed]
      · rw [endPoll_stored s pollId poll hlive]
        exact mapGet_mapDelete_ne _ _ _ hne

/-- C20: for every registry holding two distinct poll identifiers A and B, a
`submitAnswer` naming A and an `endPoll` for A, whatever the outcome of their
store writes, leave B's live session (votes map, `totalVotes`, option counts
and the rest) and B's presence in the registry unchanged. -/
theorem C20_other_poll_untouched (s : ServerState) (a b : String) (pollA pollB : Poll)
    (_ha : mapGet s.activePolls a = some pollA) (hb : mapGet s.activePolls b = some pollB)
    (hne : a ≠ b) (sid : Nat) (username option : String) (storeOk : Bool) :
    mapGet (submitAnswer s sid username option a storeOk).1.activePolls b = some pollB ∧
    mapHas (submitAnswer s sid username option a storeOk).1.activePolls b = true ∧
    mapGet (endPoll s a storeOk).1.activePolls b = some pollB ∧
    mapHas (endPoll s a storeOk).1.activePolls b = true ∧
    mapGet (endPoll (submitAnswer s sid username option a storeOk).1 a storeOk).1.activePolls b
      = some pollB := by
  have hne2 : b ≠ a := fun e => hne e.symm
  have h1 := submitAnswer_other s sid username option a b storeOk hne2
  have h2 := endPoll_other s a b storeOk hne2
  have h3 := endPoll_other (submitAnswer s sid username option a storeOk).1 a b storeOk hne2
  refine ⟨h1.trans hb, ?_, h2.trans hb, ?_, (h3.trans h1).trans hb⟩
  · unfold mapHas; rw [h1, hb]; rfl
  · unfold mapHas; rw [h2, hb]; rfl

/-- C20, instance: a second poll "p2" next to the example poll "p1"; "alice"
votes on "p1" and "p1" is closed. -/
theorem C20_other_poll_witness :
    mapGet (createPoll exampleState 1 examplePollData "p2" true).1.activePolls "p1" =
      some exampleSession ∧
    mapGet (createPoll exampleState 1 examplePollData "p2" true).1.activePolls "p2" =
      some exampleSession ∧
    "p1" ≠ "p2" ∧
    mapGet (submitAnswer (createPoll exampleState 1 examplePollData "p2" true).1 2 "alice" "4"
        "p1" true).1.activePolls "p2" = some exampleSession ∧
    mapHas (submitAnswer (createPoll exampleState 1 examplePollData "p2" true).1 2 "alice" "4"
        "p1" true).1.activePolls "p2" = true ∧
    mapGet (endPoll (createPoll exampleState 1 examplePollData "p2" true).1 "p1"
        true).1.activePolls "p2" = some exampleSession ∧
    mapHas (endPoll (createPoll exampleState 1 examplePollData "p2" true).1 "p1"
        true).1.activePolls "p2" = true ∧
    mapGet (endPoll (submitAnswer (createPoll exampleState 1 examplePollData "p2" true).1 2
        "alice" "4" "p1" true).1 "p1" true).1.activePolls "p2" = some exampleSession :=
  ⟨by decide, by decide, by decide,
   C20_other_poll_untouched (createPoll exampleState 1 examplePollData "p2" true).1 "p1" "p2"
     exampleSession exampleSession (by decide) (by decide) (by decide) 2 "alice" "4" true⟩

end IntervuePoll

namespace IntervuePoll

/-! ## What the poll handlers leave alone -/

theorem createPoll_roster (s : ServerState) (sid : Nat) (pollData : PollData) (newId : String)
    (storeOk : Bool) :
    (createPoll s sid pollData newId storeOk).1.participants = s.participants ∧
    (createPoll s sid pollData newId storeOk).1.sockets = s.sockets ∧
    (createPoll s sid pollData newId storeOk).1.chatMessages = s.chatMessages := by
  cases hs : save s.db newId pollData storeOk with
  | none => rw [createPoll_failed s sid pollData newId storeOk hs]; exact ⟨rfl, rfl, rfl⟩
  | some poll => rw [createPoll_saved s sid pollData newId storeOk poll hs]; exact ⟨rfl, rfl, rfl⟩

theorem submitAnswer_roster (s : ServerState) (sid : Nat) (username option pollId : String)
    (storeOk : Bool) :
    (submitAnswer s sid username option pollId storeOk).1.participants = s.participants ∧
    (submitAnswer s sid username option pollId storeOk).1.sockets = s.sockets ∧
    (submitAnswer s sid username option pollId storeOk).1.chatMessages = s.chatMessages := by
  cases hlive : mapGet s.activePolls pollId with
  | none =>
      rw [submitAnswer_not_found s sid username option pollId storeOk hlive]
      exact ⟨rfl, rfl, rfl⟩
  | some poll =>
      cases ht : propTruthy poll.votes username with
      | true =>
          rw [submitAnswer_duplicate s sid username option pollId storeOk poll hlive ht]
          exact ⟨rfl, rfl, rfl⟩
      | false =>
          cases storeOk
          · rw [submitAnswer_store_failed s sid username option pollId poll hlive ht]
            exact ⟨rfl, rfl, rfl⟩
          · rw [submitAnswer_stored s sid username option pollId poll hlive ht]
            exact ⟨rfl, rfl, rfl⟩

theorem endPoll_roster (s : ServerState) (pollId : String) (storeOk : Bool) :
    (endPoll s pollId storeOk).1.participants = s.participants ∧
    (endPoll s pollId storeOk).1.sockets = s.sockets ∧
    (endPoll s pollId storeOk).1.chatMessages = s.chatMessages := by
  cases hlive : mapGet s.activePolls pollId with
  | none => rw [endPoll_not_found s pollId storeOk hlive]; exact ⟨rfl, rfl, rfl⟩
  | some poll =>
      cases storeOk
      · rw [endPoll_store_failed]; exact ⟨rfl, rfl, rfl⟩
      · rw [endPoll_stored s pollId poll hlive]; exact ⟨rfl, rfl, rfl⟩

/-! ## A recorded vote stays -/

/-- A recorded non-empty vote survives every event, for as long as the session
is in the registry. -/
theorem recorded_vote_kept_step (s : ServerState) (hstored : RegistryStored s)
    (pollId p o : String) (hne : o ≠ "") (poll : Poll)
    (hlive : mapGet s.activePolls pollId = some poll)
    (hvote : objLookup poll.votes p = some o) (e : Event) :
    mapGet (step s e).1.activePolls pollId = none ∨
    ∃ live, mapGet (step s e).1.activePolls pollId = some live ∧
      objLookup live.votes p = some o := by
  have hkeep : ∀ t : ServerState, t.activePolls = s.activePolls →
      mapGet t.activePolls pollId = none ∨
      ∃ live, mapGet t.activePolls pollId = some live ∧ objLookup live.votes p = some o :=
    fun t ht => Or.inr ⟨poll, by rw [ht]; exact hlive, hvote⟩
  cases e with
  | connection sid =>
      simp only [step]
      cases findSocket s sid <;> exact hkeep _ rfl
  | joinChat sid username =>
      simp only [step]
      cases findSocket s sid with
      | none => exact hkeep _ rfl
      | some k => exact hkeep _ rfl
  | chatMessage sid message timestamp id =>
      simp only [step]
      cases findSocket s sid with
      | none => exact hkeep _ rfl
      | some k => exact hkeep _ rfl
  | kickOut sid username =>
      simp only [step]
      cases findSocket s sid with
      | none => exact hkeep _ rfl
      | some k => exact hkeep _ (kickOut_polls s sid username).1
  | disconnect sid =>
      simp only [step]
      cases findSocket s sid with
      | none => exact hkeep _ rfl
      | some k => exact hkeep _ (disconnect_polls s k).1
  | createPoll sid pollData newId storeOk =>
      simp only [step]
      cases findSocket s sid with
      | none => exact hkeep _ rfl
      | some k =>
          cases hs : save s.db newId pollData storeOk with
          | none =>
              rw [createPoll_failed s sid pollData newId storeOk hs]
              exact hkeep _ rfl
          | some doc =>
              rw [createPoll_saved s sid pollData newId storeOk doc hs]
              obtain ⟨_, _, hfresh⟩ := save_spec _ _ _ _ _ hs
              have hmem : pollId ∈ objKeys s.activePolls :=
                (mapGet_isSome_iff _ _).mp (by rw [hlive]; rfl)
              have hneq : pollId ≠ newId := fun e => hfresh (e ▸ hstored pollId hmem)
              refine Or.inr ⟨poll, ?_, hvote⟩
              show mapGet (mapSet s.activePolls newId _) pollId = some poll
              rw [mapGet_mapSet_ne _ _ _ _ hneq]
              exact hlive
  | submitAnswer sid username option pid storeOk =>
      simp only [step]
      cases findSocket s sid with
      | none => exact hkeep _ rfl
      | some k =>
          by_cases hp : pollId = pid
          · subst hp
            cases ht : propTruthy poll.votes username with
            | true =>
                rw [submitAnswer_duplicate s sid username option pollId storeOk poll hlive ht]
                exact hkeep _ rfl
            | false =>
                rw [submitAnswer_activePolls s sid username option pollId storeOk poll hlive ht,
                  mapGet_mapSet_self]
                refine Or.inr ⟨_, rfl, ?_⟩
                have hup : username ≠ p := by
                  intro e
                  subst e
                  simp [propTruthy, hvote, hne] at ht
                rw [recordVote_votes, objAssign_of_not_truthy _ _ _ ht,
                  objLookup_objUpsert_ne _ _ _ _ (fun e => hup e.symm)]
                exact hvote
          · rw [submitAnswer_other s sid username option pid pollId storeOk hp]
            exact Or.inr ⟨poll, hlive, hvote⟩
  | timeout pid storeOk =>
      simp only [step]
      by_cases hp : pollId = pid
      · subst hp
        cases storeOk
        · rw [endPoll_store_failed]; exact hkeep _ rfl
        · rw [endPoll_stored s pollId poll hlive]
          exact Or.inl (mapGet_mapDelete_self _ _)
      · rw [endPoll_other s pid pollId storeOk hp]
        exact Or.inr ⟨poll, hlive, hvote⟩

/-- A recorded non-empty vote survives every run of events from a state in
which each live poll has a stored document, for as long as the session is in
the registry. -/
theorem recorded_vote_kept_run (es : List Event) (s : ServerState)
    (hstored : RegistryStored s) (pollId p o : String) (hne : o ≠ "") (poll : Poll)
    (hlive : mapGet s.activePolls pollId = some poll)
    (hvote : objLookup poll.votes p = some o) (live : Poll)
    (hstill : ∀ pre, pre <+: es → mapHas (run s pre).activePolls pollId = true)
    (hend : mapGet (run s es).activePolls pollId = some live) :
    objLookup live.votes p = some o := by
  induction es generalizing s poll with
  | nil =>
      rw [show run s [] = s from rfl, hlive] at hend
      cases hend
      exact hvote
  | cons e rest ih =>
      have h1 : mapHas (run s [e]).activePolls pollId = true :=
        hstill [e] ⟨rest, rfl⟩
      rcases recorded_vote_kept_step s hstored pollId p o hne poll hlive hvote e with h | h
      · rw [show run s [e] = (step s e).1 from rfl] at h1
        unfold mapHas at h1
        rw [h] at h1
        cases h1
      · obtain ⟨mid, hmid, hv⟩ := h
        refine ih (step s e).1 (registryStored_step s e hstored) mid hmid hv ?_ hend
        intro pre hpre
        obtain ⟨t, ht⟩ := hpre
        exact hstill (e :: pre) ⟨t, by rw [← ht]; rfl⟩

end IntervuePoll

namespace IntervuePoll

/-! ## The participant set -/

theorem mem_setAdd (s : List String) (x v : String) : v ∈ setAdd s x ↔ v = x ∨ v ∈ s := by
  unfold setAdd
  by_cases h : x ∈ s
  · rw [if_pos h]
    constructor
    · exact fun hv => Or.inr hv
    · rintro (e | e)
      · exact e ▸ h
      · exact e
  · rw [if_neg h]
    simp [or_comm]

theorem mem_setDelete (s : List String) (x v : String) : v ∈ setDelete s x ↔ v ∈ s ∧ v ≠ x := by
  simp [setDelete]

theorem disconnect_keeps (s : ServerState) (sock : Socket) (v : String)
    (hv : v ∈ s.participants) (hne : sock.username ≠ some v) :
    v ∈ (disconnect s sock).1.participants := by
  unfold disconnect
  cases hu : sock.username with
  | none => exact hv
  | some u =>
      by_cases he : u = ""
      · simp only [he, ne_eq, not_true_eq_false, if_false]
        exact hv
      · simp only [ne_eq, he, not_false_eq_true, if_true]
        refine (mem_setDelete _ _ _).mpr ⟨hv, ?_⟩
        intro e
        exact hne (by rw [hu, e])

theorem kickAll_keeps (targets : List Socket) (s : ServerState) (v : String)
    (hv : v ∈ s.participants) (hne : ∀ t ∈ targets, t.username ≠ some v) :
    v ∈ (kickAll s targets).1.participants := by
  induction targets generalizing s with
  | nil => exact hv
  | cons t ts ih =>
      simp only [kickAll]
      exact ih _ (disconnect_keeps s t v hv (hne t (List.mem_cons_self t ts)))
        (fun x hx => hne x (List.mem_cons_of_mem t hx))

theorem kickOut_keeps (s : ServerState) (sid : Nat) (target v : String)
    (hv : v ∈ s.participants) (hne : target ≠ v) :
    v ∈ (kickOut s sid target).1.participants := by
  unfold kickOut
  split
  · exact hv
  · split
    · refine (mem_setDelete _ _ _).mpr ⟨?_, fun e => hne e.symm⟩
      apply kickAll_keeps _ s v hv
      intro t ht
      have htu : t.username = some target := by
        simpa using (List.mem_filter.mp ht).2
      rw [htu]
      intro e
      exact hne (Option.some.inj e)
    · exact hv

theorem findSocket_mem (s : ServerState) (sid : Nat) (k : Socket)
    (h : findSocket s sid = some k) : k ∈ s.sockets ∧ k.id = sid := by
  unfold findSocket at h
  exact ⟨List.mem_of_find?_eq_some h, by simpa using List.find?_some h⟩

/-- An event that may not remove a username leaves it in the participant set. -/
theorem participants_kept_step (s : ServerState) (v : String) (e : Event)
    (hv : v ∈ s.participants) (hkeep : removesUser s v e = false) :
    v ∈ (step s e).1.participants := by
  cases e with
  | connection sid =>
      simp only [step]
      cases findSocket s sid <;> exact hv
  | joinChat sid username =>
      simp only [step]
      cases findSocket s sid with
      | none => exact hv
      | some k => exact (mem_setAdd _ _ _).mpr (Or.inr hv)
  | chatMessage sid message timestamp id =>
      simp only [step]
      cases findSocket s sid with
      | none => exact hv
      | some k => exact hv
  | createPoll sid pollData newId storeOk =>
      simp only [step]
      cases findSocket s sid with
      | none => exact hv
      | some k => rw [(createPoll_roster s sid pollData newId storeOk).1]; exact hv
  | submitAnswer sid username option pid storeOk =>
      simp only [step]
      cases findSocket s sid with
      | none => exact hv
      | some k => rw [(submitAnswer_roster s sid username option pid storeOk).1]; exact hv
  | kickOut sid target =>
      simp only [step]
      have hne : target ≠ v := by simpa [removesUser] using hkeep
      cases findSocket s sid with
      | none => exact hv
      | some k => exact kickOut_keeps s sid target v hv hne
  | disconnect sid =>
      simp only [step]
      cases hf : findSocket s sid with
      | none => exact hv
      | some k =>
          apply disconnect_keeps s k v hv
          simpa [removesUser, hf] using hkeep
  | timeout pid storeOk =>
      simp only [step]
      rw [(endPoll_roster s pid storeOk).1]; exact hv

theorem participants_kept_run (es : List Event) (s : ServerState) (v : String)
    (hv : v ∈ s.participants) (hkeep : neverRemoved v s es = true) :
    v ∈ (run s es).participants := by
  induction es generalizing s with
  | nil => exact hv
  | cons e rest ih =>
      simp only [neverRemoved, Bool.and_eq_true, Bool.not_eq_true'] at hkeep
      exact ih (step s e).1 (participants_kept_step s v e hv hkeep.1) hkeep.2

/-- C17: for every `joinChat(u)`, the `participantsUpdate` it broadcasts
carries a roster that contains `u`, every member of the participant set at
that time, and so every username `v` added by an earlier `joinChat` and not
removed since by a disconnection or a `kickOut`; `joinChat("carol")` followed
by `joinChat("dave")` broadcasts a roster with both. -/
theorem C17_roster_broadcast (s0 : ServerState) (sid0 : Nat) (v : String) (mid : List Event)
    (sid : Nat) (username : String)
    (hkept : neverRemoved v (joinChat s0 sid0 v).1 mid = true) :
    (∃ roster,
      (joinChat (run (joinChat s0 sid0 v).1 mid) sid username).2 =
        [Output.broadcast (ServerEvent.participantsUpdate roster),
         Output.emit sid (ServerEvent.chatHistory
           (sliceLast 50 (run (joinChat s0 sid0 v).1 mid).chatMessages))] ∧
      username ∈ roster ∧ v ∈ roster ∧
      ∀ w ∈ (run (joinChat s0 sid0 v).1 mid).participants, w ∈ roster) ∧
    (joinChat (joinChat ServerState.init 1 "carol").1 2 "dave").2 =
      [Output.broadcast (ServerEvent.participantsUpdate ["carol", "dave"]),
       Output.emit 2 (ServerEvent.chatHistory [])] := by
  refine ⟨⟨setAdd (run (joinChat s0 sid0 v).1 mid).participants username, rfl, ?_, ?_, ?_⟩,
    by decide⟩
  · exact (mem_setAdd _ _ _).mpr (Or.inl rfl)
  · refine (mem_setAdd _ _ _).mpr (Or.inr ?_)
    apply participants_kept_run mid _ v _ hkept
    exact (mem_setAdd _ _ _).mpr (Or.inl rfl)
  · intro w hw
    exact (mem_setAdd _ _ _).mpr (Or.inr hw)

/-- C17, instance: "carol" joins, a chat message and a vote attempt go by,
"erin" joins and leaves, then "dave" joins. -/
theorem C17_roster_witness :
    neverRemoved "carol"
      (joinChat (run ServerState.init
        [Event.connection 1, Event.connection 2, Event.connection 3]) 1 "carol").1
      [Event.chatMessage 1 [("text", "hi")] 5 5, Event.joinChat 3 "erin",
       Event.submitAnswer 1 "carol" "4" "p1" true, Event.disconnect 3] = true ∧
    (joinChat (run (joinChat (run ServerState.init
        [Event.connection 1, Event.connection 2, Event.connection 3]) 1 "carol").1
        [Event.chatMessage 1 [("text", "hi")] 5 5, Event.joinChat 3 "erin",
         Event.submitAnswer 1 "carol" "4" "p1" true, Event.disconnect 3]) 2 "dave").2 =
      [Output.broadcast (ServerEvent.participantsUpdate ["carol", "dave"]),
       Output.emit 2 (ServerEvent.chatHistory [ChatMessage.mk [("text", "hi")] 5 5])] ∧
    ((∃ roster,
      (joinChat (run (joinChat (run ServerState.init
          [Event.connection 1, Event.connection 2, Event.connection 3]) 1 "carol").1
          [Event.chatMessage 1 [("text", "hi")] 5 5, Event.joinChat 3 "erin",
           Event.submitAnswer 1 "carol" "4" "p1" true, Event.disconnect 3]) 2 "dave").2 =
        [Output.broadcast (ServerEvent.participantsUpdate roster),
         Output.emit 2 (ServerEvent.chatHistory
           (sliceLast 50 (run (joinChat (run ServerState.init
             [Event.connection 1, Event.connection 2, Event.connection 3]) 1 "carol").1
             [Event.chatMessage 1 [("text", "hi")] 5 5, Event.joinChat 3 "erin",
              Event.submitAnswer 1 "carol" "4" "p1" true, Event.disconnect 3]).chatMessages))] ∧
      "dave" ∈ roster ∧ "carol" ∈ roster ∧
      ∀ w ∈ (run (joinChat (run ServerState.init
          [Event.connection 1, Event.connection 2, Event.connection 3]) 1 "carol").1
          [Event.chatMessage 1 [("text", "hi")] 5 5, Event.joinChat 3 "erin",
           Event.submitAnswer 1 "carol" "4" "p1" true, Event.disconnect 3]).participants,
        w ∈ roster) ∧
    (joinChat (joinChat ServerState.init 1 "carol").1 2 "dave").2 =
      [Output.broadcast (ServerEvent.participantsUpdate ["carol", "dave"]),
       Output.emit 2 (ServerEvent.chatHistory [])]) :=
  ⟨by decide, by decide,
   C17_roster_broadcast (run ServerState.init
       [Event.connection 1, Event.connection 2, Event.connection 3]) 1 "carol"
     [Event.chatMessage 1 [("text", "hi")] 5 5, Event.joinChat 3 "erin",
      Event.submitAnswer 1 "carol" "4" "p1" true, Event.disconnect 3] 2 "dave" (by decide)⟩

end IntervuePoll

namespace IntervuePoll

/-! ## The roster invariant -/

theorem findSocket_none (s : ServerState) (sid : Nat) (h : findSocket s sid = none) :
    sid ∉ s.sockets.map (fun k => k.id) := by
  unfold findSocket at h
  intro hm
  obtain ⟨k, hk, hid⟩ := List.mem_map.mp hm
  have := List.find?_eq_none.mp h k hk
  simp [hid] at this

theorem map_id_join (l : List Socket) (sid : Nat) (u : String) :
    (l.map (fun k => if k.id = sid then { k with username := some u, inChat := true } else k)).map
      (fun k => k.id) = l.map (fun k => k.id) := by
  induction l with
  | nil => rfl
  | cons x xs ih =>
      simp only [List.map_cons, ih]
      by_cases h : x.id = sid <;> simp [h]

theorem map_join_of_not_mem (l : List Socket) (sid : Nat) (u : String)
    (h : sid ∉ l.map (fun k => k.id)) :
    l.map (fun k => if k.id = sid then { k with username := some u, inChat := true } else k)
      = l := by
  induction l with
  | nil => rfl
  | cons x xs ih =>
      simp only [List.map_cons, List.mem_cons, not_or] at h
      have hx : ¬ x.id = sid := fun e => h.1 e.symm
      simp only [List.map_cons, hx, if_false, ih h.2]

/-- Binding a username to the one socket with a given identifier, which had
none, adds that username to the bound ones. -/
theorem usernames_join (l : List Socket) (sid : Nat) (u : String) (k : Socket)
    (hnodup : (l.map (fun k => k.id)).Nodup) (hk : k ∈ l) (hid : k.id = sid)
    (hnone : k.username = none) :
    ((l.map (fun k => if k.id = sid then { k with username := some u, inChat := true }
        else k)).filterMap (fun k => k.username)).Perm
      (u :: l.filterMap (fun k => k.username)) := by
  induction l with
  | nil => cases hk
  | cons x xs ih =>
      rw [List.map_cons, List.nodup_cons] at hnodup
      by_cases hx : x.id = sid
      · have hxk : x = k := by
          rcases List.mem_cons.mp hk with e | e
          · exact e.symm
          · exfalso
            apply hnodup.1
            rw [hx, ← hid]
            exact List.mem_map.mpr ⟨k, e, rfl⟩
        have hsid : sid ∉ xs.map (fun k => k.id) := hx ▸ hnodup.1
        rw [List.map_cons, map_join_of_not_mem xs sid u hsid, if_pos hx]
        have hxn : x.username = none := hxk ▸ hnone
        simp [List.filterMap_cons, hxn]
      · have hk2 : k ∈ xs := by
          rcases List.mem_cons.mp hk with e | e
          · exact absurd (e ▸ hid) hx
          · exact e
        have h := ih hnodup.2 hk2
        rw [List.map_cons, if_neg hx]
        cases hu : x.username with
        | none => simpa [List.filterMap_cons, hu] using h
        | some w =>
            simp only [List.filterMap_cons, hu]
            exact (List.Perm.cons w h).trans (List.Perm.swap u w _)

theorem inChat_join (l : List Socket) (sid : Nat) (u : String)
    (h : ∀ k ∈ l, k.inChat = k.username.isSome) :
    ∀ k ∈ l.map (fun k => if k.id = sid then { k with username := some u, inChat := true }
      else k), k.inChat = k.username.isSome := by
  intro k hk
  obtain ⟨x, hx, rfl⟩ := List.mem_map.mp hk
  by_cases hid : x.id = sid
  · simp [hid]
  · simpa [hid] using h x hx

/-- Taking out the one socket with a given identifier takes its username, if
any, out of the bound ones. -/
theorem usernames_filter (l : List Socket) (k : Socket)
    (hnodup : (l.map (fun k => k.id)).Nodup) (hk : k ∈ l) :
    (l.filterMap (fun k => k.username)).Perm
      (k.username.toList ++
        (l.filter (fun x => decide (x.id ≠ k.id))).filterMap (fun k => k.username)) := by
  induction l with
  | nil => cases hk
  | cons x xs ih =>
      rw [List.map_cons, List.nodup_cons] at hnodup
      by_cases hx : x.id = k.id
      · have hxk : x = k := by
          rcases List.mem_cons.mp hk with e | e
          · exact e.symm
          · exfalso
            apply hnodup.1
            rw [hx]
            exact List.mem_map.mpr ⟨k, e, rfl⟩
        have hrest : xs.filter (fun y => decide (y.id ≠ k.id)) = xs := by
          rw [List.filter_eq_self]
          intro y hy
          have : y.id ≠ k.id := by
            intro e
            apply hnodup.1
            rw [hx, ← e]
            exact List.mem_map.mpr ⟨y, hy, rfl⟩
          simpa using this
        rw [List.filter_cons_of_neg (by simpa using hx), hrest, ← hxk]
        cases hu : x.username with
        | none => simp [List.filterMap_cons, hu]
        | some w => simp [List.filterMap_cons, hu]
      · have hk2 : k ∈ xs := by
          rcases List.mem_cons.mp hk with e | e
          · exact absurd (congrArg Socket.id e).symm hx
          · exact e
        have h := ih hnodup.2 hk2
        rw [List.filter_cons_of_pos (by simpa using hx)]
        cases hu : x.username with
        | none => simpa [List.filterMap_cons, hu] using h
        | some w =>
            simp only [List.filterMap_cons, hu]
            exact (List.Perm.cons w h).trans List.perm_middle.symm

theorem rosterInv_init : RosterInv ServerState.init := by
  refine ⟨List.nodup_nil, ?_, ?_, List.nodup_nil, ?_⟩
  · intro k hk; cases hk
  · simp [boundUsernames, ServerState.init]
  · intro u; simp [boundUsernames, ServerState.init]

theorem rosterInv_of_same (s t : ServerState) (h : RosterInv s)
    (hp : t.participants = s.participants) (hs : t.sockets = s.sockets) : RosterInv t := by
  unfold RosterInv boundUsernames at *
  rw [hp, hs]
  exact h

theorem rosterInv_connection (s : ServerState) (sid : Nat) (h : RosterInv s)
    (hnew : findSocket s sid = none) :
    RosterInv { s with sockets := s.sockets ++ [{ id := sid, username := none, inChat := false }] } := by
  obtain ⟨hid, hchat, hempty, hnodup, hiff⟩ := h
  have hb : boundUsernames
      { s with sockets := s.sockets ++ [{ id := sid, username := none, inChat := false }] }
      = boundUsernames s := by
    simp [boundUsernames, List.filterMap_append]
  refine ⟨?_, ?_, ?_, ?_, ?_⟩
  · show ((s.sockets ++ [Socket.mk sid none false]).map (fun k => k.id)).Nodup
    rw [List.map_append, List.map_singleton]
    refine List.Nodup.append hid (List.nodup_singleton _) ?_
    intro a ha hb2
    have : a = sid := by simpa using hb2
    exact findSocket_none s sid hnew (this ▸ ha)
  · intro k hk
    rcases List.mem_append.mp hk with e | e
    · exact hchat k e
    · have : k = { id := sid, username := none, inChat := false } := by simpa using e
      rw [this]
      rfl
  · rw [hb]; exact hempty
  · rw [hb]; exact hnodup
  · intro u; rw [hb]; exact hiff u

theorem rosterInv_joinChat (s : ServerState) (sid : Nat) (u : String) (k : Socket)
    (h : RosterInv s) (hk : findSocket s sid = some k)
    (hfresh : freshJoin s (Event.joinChat sid u) = true) :
    RosterInv (joinChat s sid u).1 := by
  obtain ⟨hid, hchat, hempty, hnodup, hiff⟩ := h
  simp only [freshJoin, hk, Option.bind_some, decide_eq_true_eq] at hfresh
  obtain ⟨hne, hnone, hnot⟩ := hfresh
  obtain ⟨hmem, hkid⟩ := findSocket_mem s sid k hk
  have hperm := usernames_join s.sockets sid u k hid hmem hkid hnone
  have hs : (joinChat s sid u).1.sockets = s.sockets.map
      (fun k => if k.id = sid then { k with username := some u, inChat := true } else k) := rfl
  have hp : (joinChat s sid u).1.participants = setAdd s.participants u := rfl
  unfold RosterInv boundUsernames
  rw [hs, hp]
  refine ⟨?_, ?_, ?_, ?_, ?_⟩
  · rw [map_id_join]; exact hid
  · exact inChat_join s.sockets sid u hchat
  · rw [hperm.mem_iff]
    intro hm
    rcases List.mem_cons.mp hm with e | e
    · exact hne e.symm
    · exact hempty e
  · rw [hperm.nodup_iff]
    exact List.nodup_cons.mpr ⟨hnot, hnodup⟩
  · intro v
    rw [hperm.mem_iff, mem_setAdd, List.mem_cons, hiff v]
    rfl

/-- The handler `disconnect` of a connected socket keeps the roster
consistent, and the username of that socket is no longer bound. -/
theorem rosterInv_disconnect (s : ServerState) (k : Socket) (h : RosterInv s)
    (hk : k ∈ s.sockets) :
    RosterInv (disconnect s k).1 ∧
    (disconnect s k).1.sockets = s.sockets.filter (fun x => decide (x.id ≠ k.id)) ∧
    ∀ u, k.username = some u → u ∉ boundUsernames (disconnect s k).1 := by
  obtain ⟨hid, hchat, hempty, hnodup, hiff⟩ := h
  have hperm := usernames_filter s.sockets k hid hk
  have hsock : (disconnect s k).1.sockets = s.sockets.filter (fun x => decide (x.id ≠ k.id)) := by
    unfold disconnect
    cases k.username with
    | none => rfl
    | some u => by_cases he : u = "" <;> simp [he]
  have hb : boundUsernames (disconnect s k).1 =
      (s.sockets.filter (fun x => decide (x.id ≠ k.id))).filterMap (fun k => k.username) := by
    unfold boundUsernames; rw [hsock]
  have hidn : ((disconnect s k).1.sockets.map (fun k => k.id)).Nodup := by
    rw [hsock]
    exact hid.sublist (List.Sublist.map _ (List.filter_sublist _))
  have hchatn : ∀ x ∈ (disconnect s k).1.sockets, x.inChat = x.username.isSome := by
    intro x hx
    rw [hsock] at hx
    exact hchat x (List.mem_filter.mp hx).1
  cases hu : k.username with
  | none =>
      rw [hu] at hperm
      simp only [Option.toList_none, List.nil_append] at hperm
      have hpart : (disconnect s k).1.participants = s.participants := by
        unfold disconnect; rw [hu]
      refine ⟨⟨hidn, hchatn, ?_, ?_, ?_⟩, hsock, fun u hcon => by cases hcon⟩
      · rw [hb, ← hperm.mem_iff]; exact hempty
      · rw [hb, ← hperm.nodup_iff]; exact hnodup
      · intro v; rw [hb, hpart, ← hperm.mem_iff]; exact hiff v
  | some u =>
      rw [hu] at hperm
      simp only [Option.toList_some, List.singleton_append] at hperm
      have hnd : (u :: (s.sockets.filter (fun x => decide (x.id ≠ k.id))).filterMap
          (fun k => k.username)).Nodup := hperm.nodup_iff.mp hnodup
      have hune : u ≠ "" := by
        intro e
        apply hempty
        show "" ∈ s.sockets.filterMap (fun k => k.username)
        rw [hperm.mem_iff, e]
        exact List.mem_cons_self _ _
      have hpart : (disconnect s k).1.participants = setDelete s.participants u := by
        unfold disconnect; rw [hu]; simp [hune]
      refine ⟨⟨hidn, hchatn, ?_, ?_, ?_⟩, hsock, ?_⟩
      · rw [hb]
        intro hm
        apply hempty
        show "" ∈ s.sockets.filterMap (fun k => k.username)
        rw [hperm.mem_iff]
        exact List.mem_cons_of_mem _ hm
      · rw [hb]; exact (List.nodup_cons.mp hnd).2
      · intro v
        rw [hb, hpart, mem_setDelete, hiff v]
        show v ∈ s.sockets.filterMap (fun k => k.username) ∧ v ≠ u ↔ _
        rw [hperm.mem_iff, List.mem_cons]
        constructor
        · rintro ⟨h1 | h1, h2⟩
          · exact absurd h1 h2
          · exact h1
        · intro h1
          refine ⟨Or.inr h1, ?_⟩
          intro e
          exact (List.nodup_cons.mp hnd).1 (e ▸ h1)
      · intro w hw
        cases hw
        rw [hb]
        exact (List.nodup_cons.mp hnd).1

end IntervuePoll

namespace IntervuePoll

theorem rosterInv_setDelete (t : ServerState) (h : RosterInv t) (x : String)
    (hx : x ∉ boundUsernames t) :
    RosterInv { t with participants := setDelete t.participants x } := by
  obtain ⟨hid, hchat, hempty, hnodup, hiff⟩ := h
  refine ⟨hid, hchat, hempty, hnodup, ?_⟩
  intro v
  show v ∈ setDelete t.participants x ↔ v ∈ boundUsernames t
  rw [mem_setDelete, hiff v]
  constructor
  · exact fun hv => hv.1
  · exact fun hv => ⟨hv, fun e => hx (e ▸ hv)⟩

/-- Bound usernames being distinct, at most one socket is bound to a name. -/
theorem targets_le_one (l : List Socket) (t : String)
    (hnodup : (l.filterMap (fun k => k.username)).Nodup) :
    l.filter (fun k => decide (k.username = some t)) = [] ∨
    ∃ k, l.filter (fun k => decide (k.username = some t)) = [k] := by
  induction l with
  | nil => exact Or.inl rfl
  | cons x xs ih =>
      by_cases hx : x.username = some t
      · right
        refine ⟨x, ?_⟩
        rw [List.filter_cons_of_pos (by simpa using hx)]
        have hnd : (t :: xs.filterMap (fun k => k.username)).Nodup := by
          simpa [List.filterMap_cons, hx] using hnodup
        have hrest : xs.filter (fun k => decide (k.username = some t)) = [] := by
          rw [List.filter_eq_nil_iff]
          intro y hy
          have : y.username ≠ some t := by
            intro e
            apply (List.nodup_cons.mp hnd).1
            exact List.mem_filterMap.mpr ⟨y, hy, e⟩
          simpa using this
        rw [hrest]
      · rw [List.filter_cons_of_neg (by simpa using hx)]
        apply ih
        cases hu : x.username with
        | none => simpa [List.filterMap_cons, hu] using hnodup
        | some w =>
            have : (w :: xs.filterMap (fun k => k.username)).Nodup := by
              simpa [List.filterMap_cons, hu] using hnodup
            exact (List.nodup_cons.mp this).2

theorem kickOut_teacher (s : ServerState) (sid : Nat) (target me : String)
    (hme : (findSocket s sid).bind (fun k => k.username) = some me)
    (ht : me ≠ "" ∧ startsWith me "teacher" = true) :
    kickOut s sid target =
      ({ (kickAll s (s.sockets.filter (fun k => decide (k.username = some target)))).1 with
         participants := setDelete
           (kickAll s (s.sockets.filter
             (fun k => decide (k.username = some target)))).1.participants target },
       (kickAll s (s.sockets.filter (fun k => decide (k.username = some target)))).2 ++
         [Output.broadcast (ServerEvent.participantsUpdate (setDelete
           (kickAll s (s.sockets.filter
             (fun k => decide (k.username = some target)))).1.participants target))]) := by
  unfold kickOut
  rw [hme]
  simp only [ht, ne_eq, not_false_eq_true, and_self, if_true]

theorem kickOut_not_teacher (s : ServerState) (sid : Nat) (target : String)
    (h : ∀ me, (findSocket s sid).bind (fun k => k.username) = some me →
      ¬ (me ≠ "" ∧ startsWith me "teacher" = true)) :
    kickOut s sid target = (s, []) := by
  unfold kickOut
  cases hb : (findSocket s sid).bind (fun k => k.username) with
  | none => rfl
  | some me =>
      have := h me hb
      simp only [this, if_false]

theorem rosterInv_kickOut (s : ServerState) (sid : Nat) (target : String) (h : RosterInv s) :
    RosterInv (kickOut s sid target).1 := by
  by_cases hteacher : ∃ me, (findSocket s sid).bind (fun k => k.username) = some me ∧
      (me ≠ "" ∧ startsWith me "teacher" = true)
  · obtain ⟨me, hme, ht⟩ := hteacher
    rw [kickOut_teacher s sid target me hme ht]
    rcases targets_le_one s.sockets target h.2.2.2.1 with hnil | ⟨k, hone⟩
    · rw [hnil]
      apply rosterInv_setDelete s h
      intro hm
      obtain ⟨y, hy, hyu⟩ := List.mem_filterMap.mp hm
      have hmem : y ∈ s.sockets.filter (fun k => decide (k.username = some target)) :=
        List.mem_filter.mpr ⟨hy, by simpa using hyu⟩
      rw [hnil] at hmem
      cases hmem
    · rw [hone]
      have hk : k ∈ s.sockets.filter (fun k => decide (k.username = some target)) := by
        rw [hone]; exact List.mem_singleton.mpr rfl
      obtain ⟨hks, hku⟩ := List.mem_filter.mp hk
      have hku2 : k.username = some target := by simpa using hku
      obtain ⟨hinv, _, hgone⟩ := rosterInv_disconnect s k h hks
      exact rosterInv_setDelete (disconnect s k).1 hinv target (hgone target hku2)
  · rw [kickOut_not_teacher s sid target (fun me hme hc => hteacher ⟨me, hme, hc⟩)]
    exact h

theorem rosterInv_step (s : ServerState) (e : Event) (h : RosterInv s)
    (hfresh : freshJoin s e = true) : RosterInv (step s e).1 := by
  cases e with
  | connection sid =>
      simp only [step]
      cases hf : findSocket s sid with
      | some k => exact h
      | none => exact rosterInv_connection s sid h hf
  | joinChat sid username =>
      simp only [step]
      cases hf : findSocket s sid with
      | none => exact h
      | some k => exact rosterInv_joinChat s sid username k h hf hfresh
  | chatMessage sid message timestamp id =>
      simp only [step]
      cases findSocket s sid with
      | none => exact h
      | some k => exact rosterInv_of_same s _ h rfl rfl
  | createPoll sid pollData newId storeOk =>
      simp only [step]
      cases findSocket s sid with
      | none => exact h
      | some k =>
          have hr := createPoll_roster s sid pollData newId storeOk
          exact rosterInv_of_same s _ h hr.1 hr.2.1
  | submitAnswer sid username option pid storeOk =>
      simp only [step]
      cases findSocket s sid with
      | none => exact h
      | some k =>
          have hr := submitAnswer_roster s sid username option pid storeOk
          exact rosterInv_of_same s _ h hr.1 hr.2.1
  | kickOut sid target =>
      simp only [step]
      cases findSocket s sid with
      | none => exact h
      | some k => exact rosterInv_kickOut s sid target h
  | disconnect sid =>
      simp only [step]
      cases hf : findSocket s sid with
      | none => exact h
      | some k => exact (rosterInv_disconnect s k h (findSocket_mem s sid k hf).1).1
  | timeout pid storeOk =>
      simp only [step]
      have hr := endPoll_roster s pid storeOk
      exact rosterInv_of_same s _ h hr.1 hr.2.1

theorem rosterInv_run (es : List Event) (s : ServerState) (h : RosterInv s)
    (hfresh : freshJoins s es = true) : RosterInv (run s es) := by
  induction es generalizing s with
  | nil => exact h
  | cons e rest ih =>
      simp only [freshJoins, Bool.and_eq_true] at hfresh
      exact ih (step s e).1 (rosterInv_step s e h hfresh.1) hfresh.2

/-! ## Claim C13: the participant set and the connections -/

/-- C13 (as amended): in every state reached from start-up by events in which
each `joinChat` comes from a connection that has not joined before and carries
a non-empty username that no connected connection holds at that time, the
participant set equals the set of usernames bound to currently connected
connections that have joined chat. -/
theorem C13_roster_matches_connections (evs : List Event)
    (hfresh : freshJoins ServerState.init evs = true) (u : String) :
    u ∈ (run ServerState.init evs).participants ↔
      ∃ k ∈ (run ServerState.init evs).sockets, k.inChat = true ∧ k.username = some u := by
  obtain ⟨_, hchat, _, _, hiff⟩ := rosterInv_run evs ServerState.init rosterInv_init hfresh
  rw [hiff u]
  unfold boundUsernames
  rw [List.mem_filterMap]
  constructor
  · rintro ⟨k, hk, hu⟩
    exact ⟨k, hk, by rw [hchat k hk, hu]; rfl, hu⟩
  · rintro ⟨k, hk, _, hu⟩
    exact ⟨k, hk, hu⟩

/-- C13, instance: a teacher, "carol" and "dave" join; the teacher kicks
"carol" and "dave" leaves; the teacher alone is on the roster. -/
theorem C13_roster_witness :
    freshJoins ServerState.init
      [Event.connection 1, Event.connection 2, Event.connection 3,
       Event.joinChat 1 "teacher_1", Event.joinChat 2 "carol", Event.joinChat 3 "dave",
       Event.kickOut 1 "carol", Event.disconnect 3] = true ∧
    (run ServerState.init
      [Event.connection 1, Event.connection 2, Event.connection 3,
       Event.joinChat 1 "teacher_1", Event.joinChat 2 "carol", Event.joinChat 3 "dave",
       Event.kickOut 1 "carol", Event.disconnect 3]).participants = ["teacher_1"] ∧
    ("teacher_1" ∈ (run ServerState.init
      [Event.connection 1, Event.connection 2, Event.connection 3,
       Event.joinChat 1 "teacher_1", Event.joinChat 2 "carol", Event.joinChat 3 "dave",
       Event.kickOut 1 "carol", Event.disconnect 3]).participants ↔
      ∃ k ∈ (run ServerState.init
        [Event.connection 1, Event.connection 2, Event.connection 3,
         Event.joinChat 1 "teacher_1", Event.joinChat 2 "carol", Event.joinChat 3 "dave",
         Event.kickOut 1 "carol", Event.disconnect 3]).sockets,
        k.inChat = true ∧ k.username = some "teacher_1") :=
  ⟨by decide, by decide,
   C13_roster_matches_connections
     [Event.connection 1, Event.connection 2, Event.connection 3,
      Event.joinChat 1 "teacher_1", Event.joinChat 2 "carol", Event.joinChat 3 "dave",
      Event.kickOut 1 "carol", Event.disconnect 3] (by decide) "teacher_1"⟩

/-- C13 as stated fails: two connections join chat as "carol" and the first
one disconnects; the participant set is empty while the second connection,
bound to "carol", is still connected. -/
theorem C13_counterexample_shared_username :
    (run ServerState.init
      [Event.connection 1, Event.connection 2, Event.joinChat 1 "carol",
       Event.joinChat 2 "carol", Event.disconnect 1]).participants = [] ∧
    (run ServerState.init
      [Event.connection 1, Event.connection 2, Event.joinChat 1 "carol",
       Event.joinChat 2 "carol", Event.disconnect 1]).sockets =
      [Socket.mk 2 (some "carol") true] := by
  decide

end IntervuePoll
